import Mathlib

/-!
# Regexp node-graph dot printer (`src/regexp/regexp-dotprinter.cc`)

A shallow embedding of `DotPrinterImpl` and its helper printers.  The Reflect
builtins of `src/builtins/builtins-reflect.cc` follow in the namespace `Reflect`.

* The output stream `os_` is the list of characters written so far; `os_ << x`
  appends the text of `x`.
* Nodes live in an arena (`List RegExpNode`); a `RegExpNode*` is an index into
  it.  The `visited` flag is stored in the node, as in the source, so the arena
  is part of the state threaded through the traversal.
* The recursion `Visit -> Accept -> Visit...` is driven by a fuel counter: one
  unit per `Accept` dispatch.  Running out of fuel is reported as
  `Err.outOfFuel`, a dangling node index as `Err.badPointer`.
* `St.trace` is a ghost log: the node of every variant renderer that ran, in
  order.  Every renderer begins by writing that node's declaration statement,
  so the log lists the emitted declarations.
-/

namespace DotPrinter

/-! ## Stream formatting of scalars -/

/-- Text of a string literal as a list of characters. -/
def str (s : String) : List Char := s.data

/-- Decimal text of an unsigned value (`os_ << unsigned`). -/
def showNat (n : Nat) : List Char := Nat.toDigits 10 n

/-- Decimal text of an `int` (`os_ << int`). -/
def showInt (i : Int) : List Char :=
  if i < 0 then '-' :: Nat.toDigits 10 i.natAbs else Nat.toDigits 10 i.natAbs

/-- Text of a node pointer (`os_ << RegExpNode*`): the arena index in
hexadecimal after `0x`. -/
def showPtr (p : Nat) : List Char := '0' :: 'x' :: Nat.toDigits 16 p

/-- The conversion `static_cast<char>(uc16)`: the low eight bits. -/
def castChar (u : Nat) : Char := Char.ofNat (u % 256)

/-! ## Data model -/

/-- The fields of `NodeInfo` the printer reads or writes. -/
structure NodeInfo where
  visited : Bool
  follows_newline_interest : Bool
  follows_word_interest : Bool
  follows_start_interest : Bool
  deriving DecidableEq, Repr

/-- Modelled from the spec: the assembler `Label` of a node (its class is
declared outside this file).  A bound label carries the position it was bound
to, a code offset, never negative. -/
structure Label where
  is_bound : Bool
  pos : Nat
  deriving DecidableEq, Repr

/-- A `CharacterRange`: inclusive bounds, both `uc16` code units. -/
structure CharacterRange where
  from_ : Nat
  to_ : Nat
  deriving DecidableEq, Repr

/-- A `TextElement`: `ATOM` with its code units, or `CHAR_CLASS` with the
negation flag and ranges of its `RegExpCharacterClass`. -/
inductive TextElement where
  | ATOM (data : List Nat)
  | CHAR_CLASS (is_negated : Bool) (ranges : List CharacterRange)
  deriving DecidableEq, Repr

/-- The enumeration `AssertionNode::AssertionType`. -/
inductive AssertionType where
  | AT_END
  | AT_START
  | AT_BOUNDARY
  | AT_NON_BOUNDARY
  | AFTER_NEWLINE
  deriving DecidableEq, Repr

/-- The `ActionNode::ActionType` tag with the members of `data_` that
`VisitAction` prints. -/
inductive ActionData where
  | SET_REGISTER (reg : Int) (value : Int)
  | INCREMENT_REGISTER (reg : Int)
  | STORE_POSITION (reg : Int)
  | BEGIN_SUBMATCH (current_position_register : Int)
  | POSITIVE_SUBMATCH_SUCCESS
  | EMPTY_MATCH_CHECK (start_register : Int) (repetition_register : Int)
      (repetition_limit : Int)
  | CLEAR_CAPTURES (range_from : Int) (range_to : Int)
  deriving DecidableEq, Repr

/-- A `GuardedAlternative`: the target node of one alternative. -/
structure GuardedAlternative where
  node : Nat
  deriving DecidableEq, Repr

/-- Modelled from the spec: `OutSet`, a set of alternative indices with a pure
membership test. -/
structure OutSet where
  members : List Nat
  deriving DecidableEq, Repr

/-- The membership test `OutSet::Get`. -/
def OutSet.Get (s : OutSet) (i : Nat) : Bool := decide (i ∈ s.members)

/-- A `DispatchTable::Entry`: the end of the range and its `OutSet`. -/
structure Entry where
  to_ : Nat
  out_set : OutSet
  deriving DecidableEq, Repr

/-- Modelled from the spec: a `DispatchTable` as the sequence of
`(range start, entry)` pairs that `ForEach` walks, in ascending order. -/
abbrev DispatchTable := List (Nat × Entry)

/-- The variant of a node with its payload and successor(s). -/
inductive NodeKind where
  | Choice (alternatives : List GuardedAlternative)
      (table_ignore_case : DispatchTable) (table_case : DispatchTable)
  | Text (elements : List TextElement) (on_success : Nat)
  | BackReference (start_register : Int) (end_register : Int) (on_success : Nat)
  | End
  | Assertion (assertion_type : AssertionType) (on_success : Nat)
  | Action (data : ActionData) (on_success : Nat)
  deriving DecidableEq, Repr

/-- A `RegExpNode`: shared info, label, and the variant. -/
structure RegExpNode where
  info : NodeInfo
  label : Label
  kind : NodeKind
  deriving DecidableEq, Repr

/-- The call `ChoiceNode::GetTable(ignore_case)` on a Choice payload. -/
def GetTable (ignore_case : Bool) (table_ignore_case table_case : DispatchTable) :
    DispatchTable :=
  if ignore_case then table_ignore_case else table_case

/-- Failure modes of the fuel-driven model. -/
inductive Err where
  | outOfFuel
  | badPointer
  deriving DecidableEq, Repr

/-- State of a render pass: the arena, the stream, and the ghost log of
renderer runs. -/
structure St where
  heap : List RegExpNode
  os : List Char
  trace : List Nat
  deriving DecidableEq, Repr

/-- The statement `os_ << s`. -/
def St.write (st : St) (s : List Char) : St := { st with os := st.os ++ s }

/-- The assignment `node->info()->visited = true`. -/
def setVisited (heap : List RegExpNode) (node : Nat) : List RegExpNode :=
  match heap[node]? with
  | none => heap
  | some n => heap.set node { n with info := { n.info with visited := true } }

/-- Whether the node at an index has its visited flag set. -/
def isVisited (heap : List RegExpNode) (node : Nat) : Bool :=
  match heap[node]? with
  | none => false
  | some n => n.info.visited

/-! ## Label escaping (the loop of `PrintNode`) -/

/-- The `switch` of `PrintNode` on one label character: what is written for it. -/
def escapeChar (c : Char) : List Char :=
  if c = '\\' then str "\\\\"
  else if c = '\"' then str "\""
  else [c]

/-- The loop `for (int i = 0; label[i]; i++)`: it stops at the first NUL (or at
the end of the buffer) and writes the escape of every character before it. -/
def escapeLabel : List Char → List Char
  | [] => []
  | c :: rest => if c = Char.ofNat 0 then [] else escapeChar c ++ escapeLabel rest

/-- The C string a buffer holds: the characters before the first NUL. -/
def cString (label : List Char) : List Char :=
  label.takeWhile (fun c => c != Char.ofNat 0)

/-! ## Declarations taken from headers outside this file -/

/-- What the printer uses from headers that are not part of this file: the
stream form of `AsUC16(c)` and the constant `OutSet::kFirstLimit`. -/
structure Env where
  AsUC16 : Nat → List Char
  kFirstLimit : Nat

/-! ## `TableEntryBodyPrinter` and `TableEntryHeaderPrinter` -/

/-- The loop of `TableEntryBodyPrinter::Call` over the indices `is`: one edge
statement per member of the set, from the port `s<from>o<i>` of the choice node
to the target of alternative `i`. -/
def bodyLoop (choice : Nat) (alternatives : List GuardedAlternative) (from_ : Nat)
    (out_set : OutSet) : List Nat → List Char → Except Err (List Char)
  | [], os => .ok os
  | i :: rest, os =>
    if out_set.Get i then
      match alternatives[i]? with
      | none => .error .badPointer
      | some alt =>
        bodyLoop choice alternatives from_ out_set rest
          (os ++ str "    n" ++ showPtr choice ++ str ":s" ++ showNat from_ ++ str "o"
            ++ showNat i ++ str " -> n" ++ showPtr alt.node ++ str ";\n")
    else bodyLoop choice alternatives from_ out_set rest os

/-- The method `TableEntryBodyPrinter::Call(from, entry)`. -/
def TableEntryBodyPrinter.Call (env : Env) (choice : Nat)
    (alternatives : List GuardedAlternative) (os : List Char) (from_ : Nat) (entry : Entry) :
    Except Err (List Char) :=
  bodyLoop choice alternatives from_ entry.out_set (List.range env.kFirstLimit) os

/-- The walk `ForEach(&body_printer)` over a table. -/
def bodyForEach (env : Env) (choice : Nat) (alternatives : List GuardedAlternative) :
    DispatchTable → List Char → Except Err (List Char)
  | [], os => .ok os
  | (from_, entry) :: rest, os =>
    match TableEntryBodyPrinter.Call env choice alternatives os from_ entry with
    | .error e => .error e
    | .ok os1 => bodyForEach env choice alternatives rest os1

/-- State of a `TableEntryHeaderPrinter`: its `first_` flag and the stream. -/
structure TableEntryHeaderPrinter where
  first_ : Bool
  os_ : List Char
  deriving DecidableEq, Repr

/-- The inner loop of `TableEntryHeaderPrinter::Call` over the indices `is`,
with the running `priority` counter. -/
def headerLoop (from_ : Nat) (out_set : OutSet) : List Nat → Nat → List Char → List Char
  | [], _, os => os
  | i :: rest, priority, os =>
    if out_set.Get i then
      headerLoop from_ out_set rest (priority + 1)
        (os ++ (if priority > 0 then str "|" else []) ++ str "<s" ++ showNat from_
          ++ str "o" ++ showNat i ++ str "> " ++ showNat priority)
    else headerLoop from_ out_set rest priority os

/-- The method `TableEntryHeaderPrinter::Call(from, entry)`. -/
def TableEntryHeaderPrinter.Call (env : Env) (p : TableEntryHeaderPrinter) (from_ : Nat)
    (entry : Entry) : TableEntryHeaderPrinter :=
  let os := if p.first_ then p.os_ else p.os_ ++ str "|"
  let os := os ++ str "\x7b\\" ++ env.AsUC16 from_ ++ str "-\\" ++ env.AsUC16 entry.to_
    ++ str "|\x7b"
  let os := headerLoop from_ entry.out_set (List.range env.kFirstLimit) 0 os
  { first_ := false, os_ := os ++ str "\x7d\x7d" }

/-- The walk `ForEach(&header_printer)` over a table. -/
def headerForEach (env : Env) : DispatchTable → TableEntryHeaderPrinter → TableEntryHeaderPrinter
  | [], p => p
  | (from_, entry) :: rest, p => headerForEach env rest (TableEntryHeaderPrinter.Call env p from_ entry)

/-! ## `AttributePrinter` and `PrintAttributes` -/

/-- State of an `AttributePrinter`: the stream and its `first_` flag. -/
structure AttributePrinter where
  os_ : List Char
  first_ : Bool
  deriving DecidableEq, Repr

/-- The method `AttributePrinter::PrintSeparator`. -/
def AttributePrinter.PrintSeparator (p : AttributePrinter) : AttributePrinter :=
  if p.first_ then { p with first_ := false } else { p with os_ := p.os_ ++ str "|" }

/-- The method `AttributePrinter::PrintBit`. -/
def AttributePrinter.PrintBit (p : AttributePrinter) (name : List Char) (value : Bool) :
    AttributePrinter :=
  if !value then p
  else
    let p := p.PrintSeparator
    { p with os_ := p.os_ ++ str "\x7b" ++ name ++ str "\x7d" }

/-- The method `AttributePrinter::PrintPositive`. -/
def AttributePrinter.PrintPositive (p : AttributePrinter) (name : List Char) (value : Int) :
    AttributePrinter :=
  if value < 0 then p
  else
    let p := p.PrintSeparator
    { p with os_ := p.os_ ++ str "\x7b" ++ name ++ str "|" ++ showInt value ++ str "\x7d" }

/-- The method `DotPrinterImpl::PrintAttributes(that)`, on the stream. -/
def PrintAttributes (that : Nat) (n : RegExpNode) (os : List Char) : List Char :=
  let os := os ++ str "  a" ++ showPtr that
    ++ str " [shape=Mrecord, color=grey, fontcolor=grey, "
    ++ str "margin=0.1, fontsize=10, label=\"\x7b"
  let printer : AttributePrinter := { os_ := os, first_ := true }
  let info := n.info
  let printer := printer.PrintBit (str "NI") info.follows_newline_interest
  let printer := printer.PrintBit (str "WI") info.follows_word_interest
  let printer := printer.PrintBit (str "SI") info.follows_start_interest
  let label := n.label
  let printer :=
    if label.is_bound then printer.PrintPositive (str "@") (label.pos : Int) else printer
  printer.os_ ++ str "\x7d\"];\n"
    ++ str "  a" ++ showPtr that ++ str " -> n" ++ showPtr that
    ++ str " [style=dashed, color=grey, arrowhead=none];\n"

/-! ## The traversal and the variant renderers -/

/-- The result of a (fuel-driven) printer call. -/
abbrev Res := Except Err St

/-- The method `DotPrinterImpl::Visit(node)`, with the virtual dispatch
`node->Accept(this)` passed in as `accept`. -/
def VisitVia (accept : Nat → St → Res) (node : Nat) (st : St) : Res :=
  match st.heap[node]? with
  | none => .error .badPointer
  | some n =>
    if n.info.visited then .ok st
    else accept node { st with heap := setVisited st.heap node }

/-- The method `DotPrinterImpl::PrintOnFailure(from, on_failure)`. -/
def PrintOnFailure (visit : Nat → St → Res) (from_ : Nat) (on_failure : Nat) (st : St) : Res :=
  let st := st.write (str "  n" ++ showPtr from_ ++ str " -> n" ++ showPtr on_failure
    ++ str " [style=dotted];\n")
  visit on_failure st

/-- The constant `kPrintDispatchTable`. -/
def kPrintDispatchTable : Bool := false

/-- The first loop of the `else` branch of `VisitChoice`: for each alternative
the text `  n<that> -> n<alt.node()>`. -/
def choiceEdges (that : Nat) : List GuardedAlternative → List Char
  | [] => []
  | alt :: rest => str "  n" ++ showPtr that ++ str " -> n" ++ showPtr alt.node
      ++ choiceEdges that rest

/-- The last loop of `VisitChoice`: `alt.node()->Accept(this)` for each
alternative in order. -/
def acceptAlternatives (accept : Nat → St → Res) : List GuardedAlternative → St → Res
  | [], st => .ok st
  | alt :: rest, st =>
    match accept alt.node st with
    | .error e => .error e
    | .ok st1 => acceptAlternatives accept rest st1

/-- The method `DotPrinterImpl::VisitChoice(that)`. -/
def VisitChoice (env : Env) (ignore_case : Bool) (accept : Nat → St → Res) (that : Nat)
    (n : RegExpNode) (alternatives : List GuardedAlternative)
    (table_ignore_case table_case : DispatchTable) (st : St) : Res :=
  let printed : Res :=
    if kPrintDispatchTable then
      let st := st.write (str "  n" ++ showPtr that ++ str " [shape=Mrecord, label=\"")
      let header_printer : TableEntryHeaderPrinter := { first_ := true, os_ := st.os }
      let header_printer :=
        headerForEach env (GetTable ignore_case table_ignore_case table_case) header_printer
      let st := { st with os := header_printer.os_ }
      let st := st.write (str "\"]\n")
      let st := { st with os := PrintAttributes that n st.os }
      match bodyForEach env that alternatives
          (GetTable ignore_case table_ignore_case table_case) st.os with
      | .error e => .error e
      | .ok os => .ok { st with os := os }
    else
      let st := st.write (str "  n" ++ showPtr that ++ str " [shape=Mrecord, label=\"?\"];\n")
      .ok (st.write (choiceEdges that alternatives))
  match printed with
  | .error e => .error e
  | .ok st => acceptAlternatives accept alternatives st

/-- The inner loop of `VisitText` over the ranges of a character class. -/
def printRanges (env : Env) : List CharacterRange → List Char
  | [] => []
  | range :: rest =>
    env.AsUC16 range.from_ ++ str "-" ++ env.AsUC16 range.to_ ++ printRanges env rest

/-- The `switch` of `VisitText` on one element. -/
def printElement (env : Env) : TextElement → List Char
  | .ATOM data => data.map castChar
  | .CHAR_CLASS is_negated ranges =>
    str "[" ++ (if is_negated then str "^" else []) ++ printRanges env ranges ++ str "]"

/-- The loop of `VisitText` over the elements, from index `i`. -/
def printElements (env : Env) : Nat → List TextElement → List Char
  | _, [] => []
  | i, elm :: rest =>
    (if i > 0 then str " " else []) ++ printElement env elm ++ printElements env (i + 1) rest

/-- The method `DotPrinterImpl::VisitText(that)`. -/
def VisitText (env : Env) (visit : Nat → St → Res) (that : Nat) (n : RegExpNode)
    (elements : List TextElement) (on_success : Nat) (st : St) : Res :=
  let st := st.write (str "  n" ++ showPtr that ++ str " [label=\"")
  let st := st.write (printElements env 0 elements)
  let st := st.write (str "\", shape=box, peripheries=2];\n")
  let st := { st with os := PrintAttributes that n st.os }
  let st := st.write (str "  n" ++ showPtr that ++ str " -> n" ++ showPtr on_success ++ str ";\n")
  visit on_success st

/-- The method `DotPrinterImpl::VisitBackReference(that)`. -/
def VisitBackReference (visit : Nat → St → Res) (that : Nat) (n : RegExpNode)
    (start_register end_register : Int) (on_success : Nat) (st : St) : Res :=
  let st := st.write (str "  n" ++ showPtr that ++ str " [label=\"$" ++ showInt start_register
    ++ str "..$" ++ showInt end_register ++ str "\", shape=doubleoctagon];\n")
  let st := { st with os := PrintAttributes that n st.os }
  let st := st.write (str "  n" ++ showPtr that ++ str " -> n" ++ showPtr on_success ++ str ";\n")
  visit on_success st

/-- The method `DotPrinterImpl::VisitEnd(that)`. -/
def VisitEnd (that : Nat) (n : RegExpNode) (st : St) : Res :=
  let st := st.write (str "  n" ++ showPtr that ++ str " [style=bold, shape=point];\n")
  .ok { st with os := PrintAttributes that n st.os }

/-- The `switch` of `VisitAssertion` on the assertion type. -/
def assertionText : AssertionType → List Char
  | .AT_END => str "label=\"$\", shape=septagon"
  | .AT_START => str "label=\"^\", shape=septagon"
  | .AT_BOUNDARY => str "label=\"\\b\", shape=septagon"
  | .AT_NON_BOUNDARY => str "label=\"\\B\", shape=septagon"
  | .AFTER_NEWLINE => str "label=\"(?<=\\n)\", shape=septagon"

/-- The method `DotPrinterImpl::VisitAssertion(that)`. -/
def VisitAssertion (visit : Nat → St → Res) (that : Nat) (n : RegExpNode)
    (assertion_type : AssertionType) (on_success : Nat) (st : St) : Res :=
  let st := st.write (str "  n" ++ showPtr that ++ str " [")
  let st := st.write (assertionText assertion_type)
  let st := st.write (str "];\n")
  let st := { st with os := PrintAttributes that n st.os }
  let successor := on_success
  let st := st.write (str "  n" ++ showPtr that ++ str " -> n" ++ showPtr successor ++ str ";\n")
  visit successor st

/-- The `switch` of `VisitAction` on the action type. -/
def actionText : ActionData → List Char
  | .SET_REGISTER reg value =>
    str "label=\"$" ++ showInt reg ++ str ":=" ++ showInt value ++ str "\", shape=octagon"
  | .INCREMENT_REGISTER reg => str "label=\"$" ++ showInt reg ++ str "++\", shape=octagon"
  | .STORE_POSITION reg => str "label=\"$" ++ showInt reg ++ str ":=$pos\", shape=octagon"
  | .BEGIN_SUBMATCH current_position_register =>
    str "label=\"$" ++ showInt current_position_register ++ str ":=$pos,begin\", shape=septagon"
  | .POSITIVE_SUBMATCH_SUCCESS => str "label=\"escape\", shape=septagon"
  | .EMPTY_MATCH_CHECK start_register repetition_register repetition_limit =>
    str "label=\"$" ++ showInt start_register ++ str "=$pos?,$" ++ showInt repetition_register
      ++ str "<" ++ showInt repetition_limit ++ str "?\", shape=septagon"
  | .CLEAR_CAPTURES range_from range_to =>
    str "label=\"clear $" ++ showInt range_from ++ str " to $" ++ showInt range_to
      ++ str "\", shape=septagon"

/-- The method `DotPrinterImpl::VisitAction(that)`. -/
def VisitAction (visit : Nat → St → Res) (that : Nat) (n : RegExpNode)
    (data : ActionData) (on_success : Nat) (st : St) : Res :=
  let st := st.write (str "  n" ++ showPtr that ++ str " [")
  let st := st.write (actionText data)
  let st := st.write (str "];\n")
  let st := { st with os := PrintAttributes that n st.os }
  let successor := on_success
  let st := st.write (str "  n" ++ showPtr that ++ str " -> n" ++ showPtr successor ++ str ";\n")
  visit successor st

/-- The virtual call `node->Accept(this)`: dispatch to the renderer of the
node's variant.  One unit of fuel per dispatch; the run is logged in `trace`. -/
def Accept (env : Env) (ignore_case : Bool) : Nat → Nat → St → Res
  | 0, _, _ => .error .outOfFuel
  | fuel + 1, that, st =>
    match st.heap[that]? with
    | none => .error .badPointer
    | some n =>
      let st := { st with trace := st.trace ++ [that] }
      match n.kind with
      | .Choice alternatives table_ignore_case table_case =>
        VisitChoice env ignore_case (Accept env ignore_case fuel) that n alternatives
          table_ignore_case table_case st
      | .Text elements on_success =>
        VisitText env (VisitVia (Accept env ignore_case fuel)) that n elements on_success st
      | .BackReference start_register end_register on_success =>
        VisitBackReference (VisitVia (Accept env ignore_case fuel)) that n start_register
          end_register on_success st
      | .End => VisitEnd that n st
      | .Assertion assertion_type on_success =>
        VisitAssertion (VisitVia (Accept env ignore_case fuel)) that n assertion_type
          on_success st
      | .Action data on_success =>
        VisitAction (VisitVia (Accept env ignore_case fuel)) that n data on_success st

/-- The method `DotPrinterImpl::Visit(node)` with `fuel` for the dispatches
below it. -/
def Visit (env : Env) (ignore_case : Bool) (fuel : Nat) (node : Nat) (st : St) : Res :=
  VisitVia (Accept env ignore_case fuel) node st

/-- The method `DotPrinterImpl::PrintNode(label, node)`. -/
def PrintNode (env : Env) (ignore_case : Bool) (fuel : Nat) (label : List Char) (node : Nat)
    (st : St) : Res :=
  let st := st.write (str "digraph G \x7b\n  graph [label=\"")
  let st := st.write (escapeLabel label)
  let st := st.write (str "\"];\n")
  match Visit env ignore_case fuel node st with
  | .error e => .error e
  | .ok st => .ok (st.write (str "\x7d" ++ str "\n"))

/-- A fresh printer over a graph: empty stream, empty log. -/
def St.init (heap : List RegExpNode) : St := { heap := heap, os := [], trace := [] }

/-- The entry point `DotPrinter::DotPrint(label, node, ignore_case)` in a DEBUG
build: a fresh stream and printer, then `PrintNode`. -/
def DotPrint (env : Env) (fuel : Nat) (label : List Char) (node : Nat) (ignore_case : Bool)
    (heap : List RegExpNode) : Res :=
  PrintNode env ignore_case fuel label node (St.init heap)

/-! ## Reference forms used to state the properties -/

/-- The label alphabet of the injectivity property: backslash, double quote,
printable ASCII. -/
def inAlphabet (c : Char) : Bool :=
  c == '\\' || c == '\"' || (decide (32 ≤ c.toNat) && decide (c.toNat ≤ 126))

/-- The field `{name}` of an attributes record. -/
def bitField (name : List Char) : List Char := str "\x7b" ++ name ++ str "\x7d"

/-- The field `{name|value}` of an attributes record. -/
def positiveField (name : List Char) (value : Nat) : List Char :=
  str "\x7b" ++ name ++ str "|" ++ showNat value ++ str "\x7d"

/-- The fields of a node's attributes record that are present, in the fixed
order NI, WI, SI, @. -/
def attributeFields (n : RegExpNode) : List (List Char) :=
  (if n.info.follows_newline_interest then [bitField (str "NI")] else [])
    ++ (if n.info.follows_word_interest then [bitField (str "WI")] else [])
    ++ (if n.info.follows_start_interest then [bitField (str "SI")] else [])
    ++ (if n.label.is_bound then [positiveField (str "@") n.label.pos] else [])

/-- The declaration statement of the attributes record of node `that`: the
present fields joined by `|` inside the outer braces of the label. -/
def attributesRecord (that : Nat) (n : RegExpNode) : List Char :=
  str "  a" ++ showPtr that
    ++ str " [shape=Mrecord, color=grey, fontcolor=grey, "
    ++ str "margin=0.1, fontsize=10, label=\"\x7b"
    ++ List.intercalate (str "|") (attributeFields n)
    ++ str "\x7d\"];\n"

/-- The dashed, arrowless edge from the attributes record to its node. -/
def attributesEdge (that : Nat) : List Char :=
  str "  a" ++ showPtr that ++ str " -> n" ++ showPtr that
    ++ str " [style=dashed, color=grey, arrowhead=none];\n"

/-- The text of one default edge statement without its terminator. -/
def edgeText (that : Nat) (target : Nat) : List Char :=
  str "  n" ++ showPtr that ++ str " -> n" ++ showPtr target

/-- The opening lines `PrintNode` writes for a label. -/
def graphHeader (label : List Char) : List Char :=
  str "digraph G \x7b\n  graph [label=\"" ++ escapeLabel label ++ str "\"];\n"

/-- The closing line `PrintNode` writes. -/
def graphFooter : List Char := str "\x7d" ++ str "\n"

/-- One state follows another in a pass: the stream and the log only grow, and
no visited flag is cleared. -/
def Extends (st st' : St) : Prop :=
  (∃ w, st'.os = st.os ++ w) ∧ (∃ t, st'.trace = st.trace ++ t) ∧
    ∀ m, isVisited st.heap m = true → isVisited st'.heap m = true

/-! ## Sample inputs -/

/-- An instance of the external declarations for evaluating examples: `AsUC16`
writes a code unit as its character, `kFirstLimit` is 32. -/
def sampleEnv : Env := { AsUC16 := fun u => [castChar u], kFirstLimit := 32 }

/-- Node info with every flag false. -/
def plainInfo : NodeInfo :=
  { visited := false, follows_newline_interest := false, follows_word_interest := false,
    follows_start_interest := false }

/-- An unbound label. -/
def unboundLabel : Label := { is_bound := false, pos := 0 }

/-- A node with plain info and an unbound label. -/
def plainNode (kind : NodeKind) : RegExpNode :=
  { info := plainInfo, label := unboundLabel, kind := kind }

/-- A single End node. -/
def endOnlyGraph : List RegExpNode := [plainNode .End]

/-- The state a pass over `endOnlyGraph` with an empty label ends in. -/
def endOnlyDone : St :=
  { heap := [{ plainNode .End with info := { plainInfo with visited := true } }]
    os := str ("digraph G \x7b\n  graph [label=\"\"];\n"
      ++ "  n0x0 [style=bold, shape=point];\n"
      ++ "  a0x0 [shape=Mrecord, color=grey, fontcolor=grey, margin=0.1, fontsize=10, "
      ++ "label=\"\x7b\x7d\"];\n"
      ++ "  a0x0 -> n0x0 [style=dashed, color=grey, arrowhead=none];\n"
      ++ "\x7d\n")
    trace := [0] }

/-- The state one run of the End renderer on the fresh `endOnlyGraph` ends in. -/
def endRendered : St :=
  { heap := endOnlyGraph
    os := str ("  n0x0 [style=bold, shape=point];\n"
      ++ "  a0x0 [shape=Mrecord, color=grey, fontcolor=grey, margin=0.1, fontsize=10, "
      ++ "label=\"\x7b\x7d\"];\n"
      ++ "  a0x0 -> n0x0 [style=dashed, color=grey, arrowhead=none];\n")
    trace := [0] }

/-- A Choice node (0) whose two alternatives both target the End node (1). -/
def sharedTargetGraph : List RegExpNode :=
  [plainNode (.Choice [⟨1⟩, ⟨1⟩] [] []), plainNode .End]

/-- A Choice node (0) with alternatives End (1) and Text (2); the Text node
continues to the same End node. -/
def altAndSuccessGraph : List RegExpNode :=
  [plainNode (.Choice [⟨1⟩, ⟨2⟩] [] []), plainNode .End, plainNode (.Text [] 1)]

/-- A Choice node whose only alternative is the node itself. -/
def selfChoiceGraph : List RegExpNode := [plainNode (.Choice [⟨0⟩] [] [])]

/-- The graph shape of a loop inside a loop: Choice 0 has alternatives Text 1
and End 3; Text 1 continues to Choice 2; Choice 2 has alternatives Choice 0 and
Text 4; Text 4 continues to Choice 2. -/
def nestedLoopGraph : List RegExpNode :=
  [plainNode (.Choice [⟨1⟩, ⟨3⟩] [] []), plainNode (.Text [.ATOM [97]] 2),
   plainNode (.Choice [⟨0⟩, ⟨4⟩] [] []), plainNode .End, plainNode (.Text [.ATOM [98]] 2)]

/-- A Text node (0) with the atom `ab` and the negated class with the range from
code unit 48 to code unit 50, followed by an End node (1). -/
def textThenEndGraph : List RegExpNode :=
  [plainNode (.Text [.ATOM [97, 98], .CHAR_CLASS true [⟨48, 50⟩]] 1), plainNode .End]

/-- A Text node (0) whose atom is the single code unit 321, above the range of a
`char`, followed by an End node (1). -/
def wideAtomGraph : List RegExpNode :=
  [plainNode (.Text [.ATOM [321]] 1), plainNode .End]

/-- A node whose label is bound at position 7 and whose only set flag is
`follows_start_interest`. -/
def startInterestAt7 (kind : NodeKind) : RegExpNode :=
  { info := { plainInfo with follows_start_interest := true },
    label := { is_bound := true, pos := 7 }, kind := kind }

/-! ## Reference forms for declarations, edges and table cells -/

/-- The `on_success` continuation of a node, for the variants that have one. -/
def onSuccessOf : NodeKind → Option Nat
  | .Text _ on_success => some on_success
  | .BackReference _ _ on_success => some on_success
  | .Assertion _ on_success => some on_success
  | .Action _ on_success => some on_success
  | .Choice _ _ _ => none
  | .End => none

/-- The declaration statement of node `that`, by variant (Choice: the form of
the branch taken when `kPrintDispatchTable` is false). -/
def nodeDeclaration (env : Env) (that : Nat) : NodeKind → List Char
  | .Choice _ _ _ => str "  n" ++ showPtr that ++ str " [shape=Mrecord, label=\"?\"];\n"
  | .Text elements _ =>
    str "  n" ++ showPtr that ++ str " [label=\""
      ++ List.intercalate (str " ") (elements.map (printElement env))
      ++ str "\", shape=box, peripheries=2];\n"
  | .BackReference start_register end_register _ =>
    str "  n" ++ showPtr that ++ str " [label=\"$" ++ showInt start_register ++ str "..$"
      ++ showInt end_register ++ str "\", shape=doubleoctagon];\n"
  | .End => str "  n" ++ showPtr that ++ str " [style=bold, shape=point];\n"
  | .Assertion assertion_type _ =>
    str "  n" ++ showPtr that ++ str " [" ++ assertionText assertion_type ++ str "];\n"
  | .Action data _ => str "  n" ++ showPtr that ++ str " [" ++ actionText data ++ str "];\n"

/-- The members of an `OutSet` that the table printers look at: the indices
below `kFirstLimit` for which `Get` holds, in ascending order. -/
def outSetMembers (env : Env) (out_set : OutSet) : List Nat :=
  (List.range env.kFirstLimit).filter out_set.Get

/-- The name of the table port of member `i` in the cell of the range starting
at `from_`. -/
def portName (from_ i : Nat) : List Char := str "s" ++ showNat from_ ++ str "o" ++ showNat i

/-- One sub-field of a header cell: the port of member `i`, shown as `priority`. -/
def headerField (from_ i priority : Nat) : List Char :=
  str "<s" ++ showNat from_ ++ str "o" ++ showNat i ++ str "> " ++ showNat priority

/-- The sub-fields of a header cell for the members `ms`, numbered from
`priority`. -/
def headerFields (from_ : Nat) : List Nat → Nat → List (List Char)
  | [], _ => []
  | i :: rest, priority => headerField from_ i priority :: headerFields from_ rest (priority + 1)

/-- The header cell of one table entry. -/
def headerCell (env : Env) (from_ : Nat) (entry : Entry) : List Char :=
  str "\x7b\\" ++ env.AsUC16 from_ ++ str "-\\" ++ env.AsUC16 entry.to_ ++ str "|\x7b"
    ++ List.intercalate (str "|") (headerFields from_ (outSetMembers env entry.out_set) 0)
    ++ str "\x7d\x7d"

/-- The edge statement of the table body for member `i` of the range starting at
`from_`, to the node `target`. -/
def bodyEdge (choice from_ i target : Nat) : List Char :=
  str "    n" ++ showPtr choice ++ str ":s" ++ showNat from_ ++ str "o" ++ showNat i
    ++ str " -> n" ++ showPtr target ++ str ";\n"

/-- The target of alternative `i` (node 0 when there is no such alternative). -/
def alternativeTarget (alternatives : List GuardedAlternative) (i : Nat) : Nat :=
  match alternatives[i]? with
  | some alt => alt.node
  | none => 0

/-! ## Graph predicates for the traversal properties -/

/-- No node of the arena is a Choice node. -/
def noChoice (heap : List RegExpNode) : Bool :=
  heap.all fun n => match n.kind with
    | .Choice _ _ _ => false
    | _ => true

/-- Every `on_success` index points into the arena. -/
def successorsInRange (heap : List RegExpNode) : Bool :=
  heap.all fun n => match onSuccessOf n.kind with
    | some s => decide (s < heap.length)
    | none => true

/-- Every node of the arena starts unvisited. -/
def allUnvisited (heap : List RegExpNode) : Bool :=
  heap.all fun n => !n.info.visited

/-- The `on_success` edge relation of an arena. -/
def SuccessEdge (heap : List RegExpNode) (m m' : Nat) : Prop :=
  ∃ n, heap[m]? = some n ∧ onSuccessOf n.kind = some m'

/-- Reachability from a node along `on_success` edges. -/
def Reachable (heap : List RegExpNode) (root m : Nat) : Prop :=
  Relation.ReflTransGen (SuccessEdge heap) root m

/-- A node with its visited flag cleared. -/
def unvisit (n : RegExpNode) : RegExpNode :=
  { n with info := { n.info with visited := false } }

/-- Two arenas hold the same nodes up to the visited flags. -/
def SameNodes (heap0 heap : List RegExpNode) : Prop :=
  heap.map unvisit = heap0.map unvisit

/-- The statements the renderer of a node other than Choice writes for it: the
declaration, the attributes record with its edge, and the edge to `on_success`
when there is one. -/
def nodeStatements (env : Env) (that : Nat) (n : RegExpNode) : List Char :=
  nodeDeclaration env that n.kind ++ attributesRecord that n ++ attributesEdge that
    ++ (match onSuccessOf n.kind with
        | some on_success => edgeText that on_success ++ str ";\n"
        | none => [])

/-- The statements for the node at an index of an arena. -/
def statementsAt (env : Env) (heap : List RegExpNode) (m : Nat) : List Char :=
  match heap[m]? with
  | some n => nodeStatements env m n
  | none => []

/-! ## More sample inputs -/

/-- An Action node (0) that increments register 2, followed by an End node (1). -/
def incrementThenEndGraph : List RegExpNode :=
  [plainNode (.Action (.INCREMENT_REGISTER 2) 1), plainNode .End]

/-- A Choice node (0) with alternatives End (1) and End (2). -/
def choiceTwoEndsGraph : List RegExpNode :=
  [plainNode (.Choice [⟨1⟩, ⟨2⟩] [] []), plainNode .End, plainNode .End]

/-- A Choice node (0) bound at position 7 with `follows_start_interest` set,
whose only alternative is the End node (1). -/
def flaggedChoiceGraph : List RegExpNode :=
  [startInterestAt7 (.Choice [⟨1⟩] [] []), plainNode .End]

/-- A loop without Choice nodes: Text `a` (0) continues to an Action node (1)
that increments register 0 and continues back to the Text node. -/
def loopGraph : List RegExpNode :=
  [plainNode (.Text [.ATOM [97]] 1), plainNode (.Action (.INCREMENT_REGISTER 0) 0)]

/-- The arena of `loopGraph` with the Text node already visited. -/
def loopGraphEntered : List RegExpNode :=
  [{ plainNode (.Text [.ATOM [97]] 1) with info := { plainInfo with visited := true } },
   plainNode (.Action (.INCREMENT_REGISTER 0) 0)]

/-- A table entry for the range ending at code unit 122 whose set holds the
single member 1. -/
def sampleEntry : Entry := { to_ := 122, out_set := { members := [1] } }

/-- Two alternatives, with targets 5 and 6. -/
def sampleAlternatives : List GuardedAlternative := [⟨5⟩, ⟨6⟩]

end DotPrinter

namespace Reflect

/-!
# Reflect builtins (`src/builtins/builtins-reflect.cc`)

The builtins delegate to the object model, which is not part of this file: its
operations are the fields of `Isolate`.  Each operation runs on the isolate's
heap and either yields a result or fails, leaving a pending exception.  The
world threaded through a builtin holds the heap and a ghost log of the
object-model calls made, in order.
-/

/-- The message templates the builtins throw `TypeError`s with. -/
inductive MessageTemplate where
  | kCalledOnNonObject
  | kProtoObjectOrNull
  deriving DecidableEq, Repr

/-- The argument of a thrown `TypeError`: the method name string of
`NewStringFromAsciiChecked`, or an object. -/
inductive ErrorArg (Obj : Type) where
  | method (name : String)
  | object (o : Obj)
  deriving DecidableEq, Repr

/-- The object-model operations the builtins call. -/
inductive Call where
  | ToName
  | ToPropertyDescriptor
  | DefineOwnProperty
  | DeletePropertyOrElement
  | GetPropertyOrElement
  | GetOwnPropertyDescriptor
  | DescriptorToObject
  | GetPrototype
  | GetKeys
  | NewJSArrayWithElements
  | SetSuperProperty
  | SetPrototype
  deriving DecidableEq, Repr

/-- What the builtins use from the object model, over a heap `σ`, object handles
`Obj` and property descriptors `Desc`.  A result `none` stands for an operation
that failed with a pending exception. -/
structure Isolate (σ Obj Desc : Type) where
  IsJSReceiver : Obj → Bool
  IsNull : Obj → Bool
  undefined_value : Obj
  ToBoolean : Bool → Obj
  ToName : Obj → σ → Option Obj × σ
  ToPropertyDescriptor : Obj → σ → Option Desc × σ
  DefineOwnProperty : Obj → Obj → Desc → σ → Option Bool × σ
  DeletePropertyOrElement : Obj → Obj → σ → Option Bool × σ
  GetPropertyOrElement : Obj → Obj → Obj → σ → Option Obj × σ
  GetOwnPropertyDescriptor : Obj → Obj → σ → Option (Option Desc) × σ
  DescriptorToObject : Desc → σ → Obj × σ
  GetPrototype : Obj → σ → Option Obj × σ
  GetKeys : Obj → σ → Option Obj × σ
  NewJSArrayWithElements : Obj → σ → Obj × σ
  SetSuperProperty : Obj → Obj → Obj → Obj → σ → Option Bool × σ
  SetPrototype : Obj → Obj → σ → Option Bool × σ

/-- The heap with the ghost log of object-model calls. -/
structure World (σ : Type) where
  heap : σ
  calls : List Call

/-- How a builtin returns: a value, a `TypeError` thrown by the builtin itself,
or the failure sentinel after a callee left a pending exception. -/
inductive Completion (Obj : Type) where
  | value (v : Obj)
  | typeError (template : MessageTemplate) (arg : ErrorArg Obj)
  | exception
  deriving DecidableEq, Repr

/-- One object-model call: it runs on the heap and is appended to the log. -/
def invoke {σ α : Type} (c : Call) (f : σ → α × σ) (w : World σ) : α × World σ :=
  ((f w.heap).1, { heap := (f w.heap).2, calls := w.calls ++ [c] })

/-- The accessor `args.atOrUndefined(isolate, index)`; `args[0]` is the receiver. -/
def atOrUndefined {σ Obj Desc : Type} (iso : Isolate σ Obj Desc) (args : List Obj)
    (index : Nat) : Obj :=
  match args[index]? with
  | some o => o
  | none => iso.undefined_value

/-- The builtin `ReflectDefineProperty`, on `args.at(1)`, `args.at(2)`, `args.at(3)`. -/
def ReflectDefineProperty {σ Obj Desc : Type} (iso : Isolate σ Obj Desc)
    (target key attributes : Obj) (w : World σ) : Completion Obj × World σ :=
  if !iso.IsJSReceiver target then
    (.typeError .kCalledOnNonObject (.method "Reflect.defineProperty"), w)
  else
    match invoke .ToName (iso.ToName key) w with
    | (none, w) => (.exception, w)
    | (some name, w) =>
      match invoke .ToPropertyDescriptor (iso.ToPropertyDescriptor attributes) w with
      | (none, w) => (.exception, w)
      | (some desc, w) =>
        match invoke .DefineOwnProperty (iso.DefineOwnProperty target name desc) w with
        | (none, w) => (.exception, w)
        | (some result, w) => (.value (iso.ToBoolean result), w)

/-- The builtin `ReflectDeleteProperty`, on `args.at(1)`, `args.at(2)`. -/
def ReflectDeleteProperty {σ Obj Desc : Type} (iso : Isolate σ Obj Desc)
    (target key : Obj) (w : World σ) : Completion Obj × World σ :=
  if !iso.IsJSReceiver target then
    (.typeError .kCalledOnNonObject (.method "Reflect.deleteProperty"), w)
  else
    match invoke .ToName (iso.ToName key) w with
    | (none, w) => (.exception, w)
    | (some name, w) =>
      match invoke .DeletePropertyOrElement (iso.DeletePropertyOrElement target name) w with
      | (none, w) => (.exception, w)
      | (some result, w) => (.value (iso.ToBoolean result), w)

/-- The builtin `ReflectGet`, on the argument list. -/
def ReflectGet {σ Obj Desc : Type} (iso : Isolate σ Obj Desc) (args : List Obj)
    (w : World σ) : Completion Obj × World σ :=
  let target := atOrUndefined iso args 1
  let key := atOrUndefined iso args 2
  let receiver := if args.length > 3 then atOrUndefined iso args 3 else target
  if !iso.IsJSReceiver target then
    (.typeError .kCalledOnNonObject (.method "Reflect.get"), w)
  else
    match invoke .ToName (iso.ToName key) w with
    | (none, w) => (.exception, w)
    | (some name, w) =>
      match invoke .GetPropertyOrElement (iso.GetPropertyOrElement receiver name target) w with
      | (none, w) => (.exception, w)
      | (some result, w) => (.value result, w)

/-- The builtin `ReflectGetOwnPropertyDescriptor`, on `args.at(1)`, `args.at(2)`. -/
def ReflectGetOwnPropertyDescriptor {σ Obj Desc : Type} (iso : Isolate σ Obj Desc)
    (target key : Obj) (w : World σ) : Completion Obj × World σ :=
  if !iso.IsJSReceiver target then
    (.typeError .kCalledOnNonObject (.method "Reflect.getOwnPropertyDescriptor"), w)
  else
    match invoke .ToName (iso.ToName key) w with
    | (none, w) => (.exception, w)
    | (some name, w) =>
      match invoke .GetOwnPropertyDescriptor (iso.GetOwnPropertyDescriptor target name) w with
      | (none, w) => (.exception, w)
      | (some none, w) => (.value iso.undefined_value, w)
      | (some (some desc), w) =>
        match invoke .DescriptorToObject (iso.DescriptorToObject desc) w with
        | (o, w) => (.value o, w)

/-- The builtin `ReflectGetPrototypeOf`, on `args.at(1)`. -/
def ReflectGetPrototypeOf {σ Obj Desc : Type} (iso : Isolate σ Obj Desc)
    (target : Obj) (w : World σ) : Completion Obj × World σ :=
  if !iso.IsJSReceiver target then
    (.typeError .kCalledOnNonObject (.method "Reflect.getPrototypeOf"), w)
  else
    let receiver := target
    match invoke .GetPrototype (iso.GetPrototype receiver) w with
    | (none, w) => (.exception, w)
    | (some result, w) => (.value result, w)

/-- The builtin `ReflectOwnKeys`, on `args.at(1)`. -/
def ReflectOwnKeys {σ Obj Desc : Type} (iso : Isolate σ Obj Desc)
    (target : Obj) (w : World σ) : Completion Obj × World σ :=
  if !iso.IsJSReceiver target then
    (.typeError .kCalledOnNonObject (.method "Reflect.ownKeys"), w)
  else
    match invoke .GetKeys (iso.GetKeys target) w with
    | (none, w) => (.exception, w)
    | (some keys, w) =>
      match invoke .NewJSArrayWithElements (iso.NewJSArrayWithElements keys) w with
      | (array, w) => (.value array, w)

/-- The builtin `ReflectSet`, on the argument list. -/
def ReflectSet {σ Obj Desc : Type} (iso : Isolate σ Obj Desc) (args : List Obj)
    (w : World σ) : Completion Obj × World σ :=
  let target := atOrUndefined iso args 1
  let key := atOrUndefined iso args 2
  let value := atOrUndefined iso args 3
  let receiver := if args.length > 4 then atOrUndefined iso args 4 else target
  if !iso.IsJSReceiver target then
    (.typeError .kCalledOnNonObject (.method "Reflect.set"), w)
  else
    match invoke .ToName (iso.ToName key) w with
    | (none, w) => (.exception, w)
    | (some name, w) =>
      match invoke .SetSuperProperty (iso.SetSuperProperty receiver name target value) w with
      | (none, w) => (.exception, w)
      | (some result, w) => (.value (iso.ToBoolean result), w)

/-- The builtin `ReflectSetPrototypeOf`, on `args.at(1)`, `args.at(2)`. -/
def ReflectSetPrototypeOf {σ Obj Desc : Type} (iso : Isolate σ Obj Desc)
    (target proto : Obj) (w : World σ) : Completion Obj × World σ :=
  if !iso.IsJSReceiver target then
    (.typeError .kCalledOnNonObject (.method "Reflect.setPrototypeOf"), w)
  else if !iso.IsJSReceiver proto && !iso.IsNull proto then
    (.typeError .kProtoObjectOrNull (.object proto), w)
  else
    match invoke .SetPrototype (iso.SetPrototype target proto) w with
    | (none, w) => (.exception, w)
    | (some result, w) => (.value (iso.ToBoolean result), w)

/-- A small object model for examples: objects are numbers, those from 100 on
are receivers, 0 is null and 1 is undefined; every operation succeeds and counts
itself on the heap, which is a counter. -/
def sampleIsolate : Isolate Nat Nat Nat where
  IsJSReceiver o := decide (100 ≤ o)
  IsNull o := decide (o = 0)
  undefined_value := 1
  ToBoolean b := if b then 3 else 2
  ToName key h := (some key, h + 1)
  ToPropertyDescriptor attributes h := (some attributes, h + 1)
  DefineOwnProperty _ _ _ h := (some true, h + 1)
  DeletePropertyOrElement _ _ h := (some true, h + 1)
  GetPropertyOrElement _ name _ h := (some name, h + 1)
  GetOwnPropertyDescriptor _ _ h := (some none, h + 1)
  DescriptorToObject desc h := (desc, h + 1)
  GetPrototype _ h := (some 0, h + 1)
  GetKeys target h := (some target, h + 1)
  NewJSArrayWithElements keys h := (keys, h + 1)
  SetSuperProperty _ _ _ _ h := (some true, h + 1)
  SetPrototype _ _ h := (some true, h + 1)

/-- A world with an empty heap counter and an empty log. -/
def sampleWorld : World Nat := { heap := 0, calls := [] }

end Reflect

namespace DotPrinter

/-! ## Lemmas -/

theorem nul_not_inAlphabet {c : Char} (h : inAlphabet c = true) : c ≠ Char.ofNat 0 := by
  rintro rfl
  revert h
  decide

theorem escapeLabel_cons {c : Char} (rest : List Char) (h : c ≠ Char.ofNat 0) :
    escapeLabel (c :: rest) = escapeChar c ++ escapeLabel rest := by
  simp [escapeLabel, h]

theorem escapeChar_backslash : escapeChar '\\' = ['\\', '\\'] := by
  rfl

theorem escapeChar_other {c : Char} (h : c ≠ '\\') : escapeChar c = [c] := by
  unfold escapeChar
  rw [if_neg h]
  split
  · next h2 => subst h2; rfl
  · rfl

theorem escapeLabel_injective_aux (a : List Char) :
    ∀ b : List Char, (∀ c ∈ a, inAlphabet c = true) → (∀ c ∈ b, inAlphabet c = true) →
      escapeLabel a = escapeLabel b → a = b := by
  induction a with
  | nil =>
    intro b _ hb h
    cases b with
    | nil => rfl
    | cons d rest =>
      have hd := nul_not_inAlphabet (hb d (List.mem_cons_self _ _))
      rw [escapeLabel_cons _ hd] at h
      by_cases hbs : d = '\\'
      · subst hbs; rw [escapeChar_backslash] at h; simp [escapeLabel] at h
      · rw [escapeChar_other hbs] at h; simp [escapeLabel] at h
  | cons c as ih =>
    intro b ha hb h
    have hc := nul_not_inAlphabet (ha c (List.mem_cons_self _ _))
    have ha2 : ∀ x ∈ as, inAlphabet x = true := fun x hx => ha x (List.mem_cons_of_mem _ hx)
    rw [escapeLabel_cons _ hc] at h
    cases b with
    | nil =>
      by_cases hcs : c = '\\'
      · subst hcs; rw [escapeChar_backslash] at h; simp [escapeLabel] at h
      · rw [escapeChar_other hcs] at h; simp [escapeLabel] at h
    | cons d rest =>
      have hd := nul_not_inAlphabet (hb d (List.mem_cons_self _ _))
      have hb2 : ∀ x ∈ rest, inAlphabet x = true := fun x hx => hb x (List.mem_cons_of_mem _ hx)
      rw [escapeLabel_cons _ hd] at h
      by_cases hcs : c = '\\'
      · by_cases hds : d = '\\'
        · subst hcs; subst hds
          rw [escapeChar_backslash] at h
          simp at h
          rw [ih rest ha2 hb2 h]
        · subst hcs
          rw [escapeChar_backslash, escapeChar_other hds] at h
          simp at h
          exact absurd h.1.symm hds
      · by_cases hds : d = '\\'
        · subst hds
          rw [escapeChar_backslash, escapeChar_other hcs] at h
          simp at h
          exact absurd h.1 hcs
        · rw [escapeChar_other hcs, escapeChar_other hds] at h
          simp at h
          rw [h.1, ih rest ha2 hb2 h.2]

theorem escapeLabel_eq_cString_of_safe (label : List Char)
    (h : ∀ c ∈ cString label, c ≠ '\\' ∧ c ≠ '\"') : escapeLabel label = cString label := by
  induction label with
  | nil => rfl
  | cons c rest ih =>
    by_cases hc : c = Char.ofNat 0
    · subst hc; rfl
    · have hcs : cString (c :: rest) = c :: cString rest := by
        simp [cString, List.takeWhile_cons, hc]
      rw [hcs] at h
      rw [escapeLabel_cons _ hc, hcs, escapeChar_other (h c (List.mem_cons_self _ _)).1,
        ih (fun x hx => h x (List.mem_cons_of_mem _ hx))]
      rfl

theorem cString_idem (label : List Char) : cString (cString label) = cString label := by
  induction label with
  | nil => rfl
  | cons c rest ih =>
    by_cases hc : c = Char.ofNat 0
    · subst hc; rfl
    · have hcs : ∀ r, cString (c :: r) = c :: cString r := by
        intro r; simp [cString, List.takeWhile_cons, hc]
      rw [hcs, hcs, ih]

theorem showInt_natCast (p : Nat) : showInt (p : Int) = showNat p := by
  unfold showInt showNat
  have h : ¬ ((p : Int) < 0) := by omega
  rw [if_neg h]
  simp

theorem PrintAttributes_eq (that : Nat) (n : RegExpNode) (os : List Char) :
    PrintAttributes that n os = os ++ attributesRecord that n ++ attributesEdge that := by
  obtain ⟨⟨v, ni, wi, si⟩, ⟨b, pos⟩, kind⟩ := n
  have hp : ¬ ((pos : Int) < 0) := by omega
  cases ni <;> cases wi <;> cases si <;> cases b <;>
    simp [PrintAttributes, AttributePrinter.PrintBit, AttributePrinter.PrintPositive,
      AttributePrinter.PrintSeparator, attributesRecord, attributesEdge, attributeFields,
      bitField, positiveField,
      showInt_natCast, List.intercalate, List.intersperse, hp, List.append_assoc]

theorem Extends.refl (st : St) : Extends st st :=
  ⟨⟨[], by simp⟩, ⟨[], by simp⟩, fun _ h => h⟩

theorem Extends.trans {a b c : St} (h1 : Extends a b) (h2 : Extends b c) : Extends a c := by
  obtain ⟨⟨w1, hw1⟩, ⟨t1, ht1⟩, hv1⟩ := h1
  obtain ⟨⟨w2, hw2⟩, ⟨t2, ht2⟩, hv2⟩ := h2
  refine ⟨⟨w1 ++ w2, ?_⟩, ⟨t1 ++ t2, ?_⟩, fun m h => hv2 m (hv1 m h)⟩
  · rw [hw2, hw1, List.append_assoc]
  · rw [ht2, ht1, List.append_assoc]

theorem Extends.os_length {a b : St} (h : Extends a b) : a.os.length ≤ b.os.length := by
  obtain ⟨⟨w, hw⟩, _⟩ := h
  rw [hw, List.length_append]
  omega

theorem extends_write (st : St) (w : List Char) : Extends st (st.write w) :=
  ⟨⟨w, rfl⟩, ⟨[], by simp [St.write]⟩, fun _ h => h⟩

theorem extends_attributes (st : St) (that : Nat) (n : RegExpNode) :
    Extends st { st with os := PrintAttributes that n st.os } :=
  ⟨⟨attributesRecord that n ++ attributesEdge that, by
      simp [PrintAttributes_eq, List.append_assoc]⟩, ⟨[], by simp⟩, fun _ h => h⟩

theorem extends_log (st : St) (that : Nat) :
    Extends st { st with trace := st.trace ++ [that] } :=
  ⟨⟨[], by simp⟩, ⟨[that], rfl⟩, fun _ h => h⟩

theorem isVisited_setVisited_self {heap : List RegExpNode} {node : Nat} {n : RegExpNode}
    (h : heap[node]? = some n) : isVisited (setVisited heap node) node = true := by
  have hlt : node < heap.length := by
    rcases Nat.lt_or_ge node heap.length with h1 | h1
    · exact h1
    · rw [List.getElem?_eq_none h1] at h; cases h
  simp [isVisited, setVisited, h, List.getElem?_set, hlt]

theorem isVisited_setVisited_mono {heap : List RegExpNode} (node m : Nat)
    (h : isVisited heap m = true) : isVisited (setVisited heap node) m = true := by
  unfold setVisited
  cases hn : heap[node]? with
  | none => simpa using h
  | some n =>
    by_cases hm : node = m
    · subst hm
      have := isVisited_setVisited_self hn
      simpa [setVisited, hn] using this
    · simp only [isVisited, List.getElem?_set_ne hm]
      exact h

theorem extends_setVisited (st : St) (node : Nat) :
    Extends st { st with heap := setVisited st.heap node } :=
  ⟨⟨[], by simp⟩, ⟨[], by simp⟩, fun m h => isVisited_setVisited_mono node m h⟩

/-- `Visit` through a dispatch that extends the state extends it too, and leaves
the node visited. -/
theorem VisitVia_extends {accept : Nat → St → Res}
    (h : ∀ n st st', accept n st = .ok st' → Extends st st')
    {node : Nat} {st st' : St} (hv : VisitVia accept node st = .ok st') :
    Extends st st' ∧ isVisited st'.heap node = true := by
  unfold VisitVia at hv
  cases hn : st.heap[node]? with
  | none => rw [hn] at hv; cases hv
  | some n =>
    rw [hn] at hv
    simp only at hv
    by_cases hvis : n.info.visited = true
    · rw [if_pos hvis] at hv
      cases hv
      exact ⟨Extends.refl _, by simp [isVisited, hn, hvis]⟩
    · rw [if_neg hvis] at hv
      have h1 := h _ _ _ hv
      exact ⟨(extends_setVisited st node).trans h1,
        h1.2.2 node (isVisited_setVisited_self hn)⟩

theorem acceptAlternatives_extends {accept : Nat → St → Res}
    (h : ∀ n st st', accept n st = .ok st' → Extends st st') :
    ∀ (alts : List GuardedAlternative) (st st' : St),
      acceptAlternatives accept alts st = .ok st' → Extends st st' := by
  intro alts
  induction alts with
  | nil =>
    intro st st' hv
    simp only [acceptAlternatives] at hv
    cases hv
    exact Extends.refl _
  | cons alt rest ih =>
    intro st st' hv
    simp only [acceptAlternatives] at hv
    cases h1 : accept alt.node st with
    | error e => rw [h1] at hv; cases hv
    | ok st1 =>
      rw [h1] at hv
      exact (h _ _ _ h1).trans (ih _ _ hv)

theorem VisitChoice_eq (env : Env) (ignore_case : Bool) (accept : Nat → St → Res) (that : Nat)
    (n : RegExpNode) (alternatives : List GuardedAlternative)
    (table_ignore_case table_case : DispatchTable) (st : St) :
    VisitChoice env ignore_case accept that n alternatives table_ignore_case table_case st =
      acceptAlternatives accept alternatives
        (st.write (str "  n" ++ showPtr that ++ str " [shape=Mrecord, label=\"?\"];\n"
          ++ choiceEdges that alternatives)) := by
  simp [VisitChoice, kPrintDispatchTable, St.write, List.append_assoc]

/-- A successful dispatch extends the state and writes at least one character. -/
theorem Accept_extends (env : Env) (ignore_case : Bool) :
    ∀ (fuel that : Nat) (st st' : St), Accept env ignore_case fuel that st = .ok st' →
      Extends st st' ∧ st.os.length < st'.os.length := by
  intro fuel
  induction fuel with
  | zero => intro that st st' h; simp [Accept] at h
  | succ fuel ih =>
    intro that st st' h
    have ih1 : ∀ n st st', Accept env ignore_case fuel n st = .ok st' → Extends st st' :=
      fun n st st' h => (ih n st st' h).1
    unfold Accept at h
    cases hn : st.heap[that]? with
    | none => rw [hn] at h; cases h
    | some n =>
      rw [hn] at h
      simp only at h
      cases hk : n.kind with
      | Choice alts t1 t2 =>
        rw [hk] at h
        simp only [VisitChoice_eq] at h
        have h2 := acceptAlternatives_extends ih1 _ _ _ h
        refine ⟨(extends_log st that).trans ((extends_write _ _).trans h2), ?_⟩
        have := h2.os_length
        simp [St.write, str] at this
        omega
      | Text elements on_success =>
        rw [hk] at h
        simp only [VisitText] at h
        have h2 := (VisitVia_extends ih1 h).1
        refine ⟨(extends_log st that).trans (((extends_write _ _).trans
          ((extends_write _ _).trans ((extends_write _ _).trans
            ((extends_attributes _ that n).trans (extends_write _ _))))).trans h2), ?_⟩
        have := h2.os_length
        simp [St.write, str, PrintAttributes_eq] at this
        omega
      | BackReference s e on_success =>
        rw [hk] at h
        simp only [VisitBackReference] at h
        have h2 := (VisitVia_extends ih1 h).1
        refine ⟨(extends_log st that).trans (((extends_write _ _).trans
            ((extends_attributes _ that n).trans (extends_write _ _))).trans h2), ?_⟩
        have := h2.os_length
        simp [St.write, str, PrintAttributes_eq] at this
        omega
      | End =>
        rw [hk] at h
        simp only [VisitEnd] at h
        cases h
        refine ⟨(extends_log st that).trans ((extends_write _ _).trans
          (extends_attributes _ that n)), ?_⟩
        simp [St.write, str, PrintAttributes_eq]
      | Assertion t on_success =>
        rw [hk] at h
        simp only [VisitAssertion] at h
        have h2 := (VisitVia_extends ih1 h).1
        refine ⟨(extends_log st that).trans (((extends_write _ _).trans
          ((extends_write _ _).trans ((extends_write _ _).trans
            ((extends_attributes _ that n).trans (extends_write _ _))))).trans h2), ?_⟩
        have := h2.os_length
        simp [St.write, str, PrintAttributes_eq] at this
        omega
      | Action d on_success =>
        rw [hk] at h
        simp only [VisitAction] at h
        have h2 := (VisitVia_extends ih1 h).1
        refine ⟨(extends_log st that).trans (((extends_write _ _).trans
          ((extends_write _ _).trans ((extends_write _ _).trans
            ((extends_attributes _ that n).trans (extends_write _ _))))).trans h2), ?_⟩
        have := h2.os_length
        simp [St.write, str, PrintAttributes_eq] at this
        omega

/-! ## Traversal claims -/

set_option maxRecDepth 100000 in
/-- C1 (the code breaks the claim): in an acyclic graph a node can be declared
more than once.  A Choice node whose two alternatives target the same End node
runs the End renderer twice (log `[0, 1, 1]`, the End declaration appears twice
in the output), and an End node reached through a Choice alternative and through
the `on_success` edge of a Text node is rendered twice as well. -/
theorem choice_alternative_declared_twice :
    (∃ st, DotPrint sampleEnv 2 [] 0 false sharedTargetGraph = .ok st ∧
      st.trace = [0, 1, 1] ∧
      st.os = str ("digraph G \x7b\n  graph [label=\"\"];\n"
        ++ "  n0x0 [shape=Mrecord, label=\"?\"];\n"
        ++ "  n0x0 -> n0x1  n0x0 -> n0x1"
        ++ "  n0x1 [style=bold, shape=point];\n"
        ++ "  a0x1 [shape=Mrecord, color=grey, fontcolor=grey, margin=0.1, fontsize=10, "
        ++ "label=\"\x7b\x7d\"];\n"
        ++ "  a0x1 -> n0x1 [style=dashed, color=grey, arrowhead=none];\n"
        ++ "  n0x1 [style=bold, shape=point];\n"
        ++ "  a0x1 [shape=Mrecord, color=grey, fontcolor=grey, margin=0.1, fontsize=10, "
        ++ "label=\"\x7b\x7d\"];\n"
        ++ "  a0x1 -> n0x1 [style=dashed, color=grey, arrowhead=none];\n"
        ++ "\x7d\n")) ∧
    (∃ st, DotPrint sampleEnv 3 [] 0 false altAndSuccessGraph = .ok st ∧
      st.trace = [0, 1, 2, 1]) :=
  ⟨⟨_, rfl, rfl, rfl⟩, ⟨_, rfl, rfl⟩⟩

theorem Accept_selfChoice (env : Env) (ignore_case : Bool) :
    ∀ (fuel : Nat) (st : St),
      (∃ n, st.heap[0]? = some n ∧ n.kind = .Choice [⟨0⟩] [] []) →
      Accept env ignore_case fuel 0 st = .error .outOfFuel := by
  intro fuel
  induction fuel with
  | zero => intro st _; rfl
  | succ fuel ih =>
    intro st h
    obtain ⟨n, hn, hk⟩ := h
    unfold Accept
    rw [hn]
    simp only [hk, VisitChoice_eq, acceptAlternatives]
    rw [ih]
    exact ⟨n, hn, hk⟩

/-- C2 (the code breaks the claim): a cycle through Choice alternatives is not
cut by the visited check.  On the Choice node that is its own alternative the
pass never returns, whatever the fuel; on the loop-inside-a-loop graph of five
nodes it returns after eight renderer runs, nodes 0, 1 and 3 declared twice. -/
theorem choice_cycle_not_cut :
    (∀ (env : Env) (ignore_case : Bool) (fuel : Nat) (label : List Char),
      DotPrint env fuel label 0 ignore_case selfChoiceGraph = .error .outOfFuel) ∧
    (∃ st, DotPrint sampleEnv 5 [] 0 false nestedLoopGraph = .ok st ∧
      st.trace = [0, 1, 2, 0, 1, 3, 4, 3] ∧ nestedLoopGraph.length = 5) := by
  refine ⟨?_, ⟨_, rfl, rfl, rfl⟩⟩
  intro env ignore_case fuel label
  have h := Accept_selfChoice env ignore_case fuel
  simp only [DotPrint, PrintNode, Visit, VisitVia, St.init, St.write, selfChoiceGraph,
    plainNode, plainInfo]
  simp only [List.getElem?_cons_zero]
  rw [if_neg (by decide)]
  rw [h]
  exact ⟨_, rfl, rfl⟩

/-- C3 (counterexample): on the single End node the second run, started on the
graph as the first run left it, writes a different text from the first. -/
theorem second_run_differs :
    ∃ st1 st2, DotPrint sampleEnv 1 [] 0 false endOnlyGraph = .ok st1 ∧
      DotPrint sampleEnv 1 [] 0 false st1.heap = .ok st2 ∧ st1.os ≠ st2.os :=
  ⟨endOnlyDone, _, rfl, rfl, by decide⟩

/-- C3 (amended): a second `PrintNode` on the graph in the state the first run
left it renders no node: it writes only the opening lines with the escaped
label and the closing line, and leaves the graph as it is.  When the root
started unvisited the first output is not of that form, so the two differ. -/
theorem second_run_prints_frame_only (env : Env) (ignore_case : Bool) (fuel : Nat)
    (label : List Char) (node : Nat) (heap : List RegExpNode) (st1 : St)
    (h : DotPrint env fuel label node ignore_case heap = .ok st1) :
    (∀ (fuel2 : Nat) (label2 : List Char) (ignore_case2 : Bool),
      DotPrint env fuel2 label2 node ignore_case2 st1.heap =
        .ok { heap := st1.heap, os := graphHeader label2 ++ graphFooter, trace := [] }) ∧
    (isVisited heap node = false → st1.os ≠ graphHeader label ++ graphFooter) := by
  simp only [DotPrint, PrintNode, Visit] at h
  cases hv : VisitVia (Accept env ignore_case fuel) node
      (((St.init heap).write (str "digraph G \x7b\n  graph [label=\"")).write
        (escapeLabel label) |>.write (str "\"];\n")) with
  | error e => rw [hv] at h; cases h
  | ok stV =>
    rw [hv] at h
    simp only [Except.ok.injEq] at h
    subst h
    have hacc : ∀ n st st', Accept env ignore_case fuel n st = .ok st' → Extends st st' :=
      fun n st st' h => (Accept_extends env ignore_case fuel n st st' h).1
    have hvis := (VisitVia_extends hacc hv).2
    constructor
    · intro fuel2 label2 ignore_case2
      simp only [St.write] at hvis
      unfold isVisited at hvis
      cases hn : stV.heap[node]? with
      | none => rw [hn] at hvis; cases hvis
      | some n =>
        rw [hn] at hvis
        simp only at hvis
        simp [DotPrint, PrintNode, Visit, VisitVia, St.init, St.write, hn, hvis, graphHeader,
          graphFooter, List.append_assoc]
    · intro hroot
      unfold VisitVia at hv
      unfold isVisited at hroot
      simp only [St.init, St.write] at hv
      cases hn : heap[node]? with
      | none => rw [hn] at hv; cases hv
      | some n =>
        rw [hn] at hv hroot
        simp only at hv hroot
        rw [hroot] at hv
        simp only [Bool.false_eq_true, if_false] at hv
        have hlen := (Accept_extends env ignore_case fuel _ _ _ hv).2
        intro heq
        have h2 := congrArg List.length heq
        simp [St.write, graphHeader, graphFooter, str] at h2 hlen
        omega

/-- C3 (witness): the amended statement at the single End node. -/
theorem second_run_prints_frame_only_witness :
    DotPrint sampleEnv 1 [] 0 false endOnlyGraph = .ok endOnlyDone ∧
    (∀ (fuel2 : Nat) (label2 : List Char) (ignore_case2 : Bool),
      DotPrint sampleEnv fuel2 label2 0 ignore_case2 endOnlyDone.heap =
        .ok { heap := endOnlyDone.heap, os := graphHeader label2 ++ graphFooter,
              trace := [] }) ∧
    (isVisited endOnlyGraph 0 = false → endOnlyDone.os ≠ graphHeader [] ++ graphFooter) :=
  ⟨rfl, second_run_prints_frame_only sampleEnv false 1 [] 0 endOnlyGraph endOnlyDone rfl⟩

/-! ## Label escaping claims -/

set_option maxRecDepth 100000 in
/-- C4 (the code breaks the claim): the `case '"'` of the escaping switch writes
the double quote alone, with no backslash before it.  The label `a"b` is written
as `a"b`, so the header line reads `graph [label="a"b"];`. -/
theorem label_quote_written_unescaped :
    escapeChar '\"' = ['\"'] ∧
    escapeLabel (str "a\"b") = str "a\"b" ∧
    (∃ st, DotPrint sampleEnv 1 (str "a\"b") 0 false endOnlyGraph = .ok st ∧
      st.os = str ("digraph G \x7b\n  graph [label=\"a\"b\"];\n"
        ++ "  n0x0 [style=bold, shape=point];\n"
        ++ "  a0x0 [shape=Mrecord, color=grey, fontcolor=grey, margin=0.1, fontsize=10, "
        ++ "label=\"\x7b\x7d\"];\n"
        ++ "  a0x0 -> n0x0 [style=dashed, color=grey, arrowhead=none];\n"
        ++ "\x7d\n")) :=
  ⟨rfl, rfl, ⟨_, rfl, rfl⟩⟩

/-- C5: label escaping is injective on labels over the alphabet of backslash,
double quote and printable ASCII: two distinct labels have distinct escaped
texts. -/
theorem escapeLabel_injective (a b : List Char) (ha : ∀ c ∈ a, inAlphabet c = true)
    (hb : ∀ c ∈ b, inAlphabet c = true) (hne : a ≠ b) :
    escapeLabel a ≠ escapeLabel b :=
  fun h => hne (escapeLabel_injective_aux a b ha hb h)

/-- C5 (witness): the labels `\"` and `"` over the alphabet are distinct and so
are their escaped texts. -/
theorem escapeLabel_injective_witness :
    (∀ c ∈ str "\\\"", inAlphabet c = true) ∧ (∀ c ∈ str "\"", inAlphabet c = true) ∧
      str "\\\"" ≠ str "\"" ∧ escapeLabel (str "\\\"") ≠ escapeLabel (str "\"") :=
  ⟨by decide, by decide, by decide,
    escapeLabel_injective (str "\\\"") (str "\"") (by decide) (by decide) (by decide)⟩

/-- C6: on a label with neither a backslash nor a double quote, escaping writes
the label itself, and escaping that text again gives the same text. -/
theorem escapeLabel_safe_identity (label : List Char)
    (h : ∀ c ∈ cString label, c ≠ '\\' ∧ c ≠ '\"') :
    escapeLabel label = cString label ∧ escapeLabel (escapeLabel label) = escapeLabel label := by
  have h1 := escapeLabel_eq_cString_of_safe label h
  refine ⟨h1, ?_⟩
  rw [h1, escapeLabel_eq_cString_of_safe (cString label) (by rw [cString_idem]; exact h),
    cString_idem]

/-- C6 (witness): the safe label `a+b*`. -/
theorem escapeLabel_safe_identity_witness :
    (∀ c ∈ cString (str "a+b*"), c ≠ '\\' ∧ c ≠ '\"') ∧
      escapeLabel (str "a+b*") = cString (str "a+b*") ∧
      escapeLabel (escapeLabel (str "a+b*")) = escapeLabel (str "a+b*") :=
  ⟨by decide, escapeLabel_safe_identity (str "a+b*") (by decide)⟩

/-! ## Renderer claims -/

theorem printElements_eq (env : Env) (elements : List TextElement) :
    ∀ i, printElements env i elements =
      (if i > 0 ∧ elements ≠ [] then str " " else [])
        ++ List.intercalate (str " ") (elements.map (printElement env)) := by
  induction elements with
  | nil => intro i; simp [printElements, List.intercalate]
  | cons elm rest ih =>
    intro i
    rw [printElements, ih (i + 1)]
    cases rest with
    | nil => simp [List.intercalate]
    | cons e2 r2 =>
      simp [List.intercalate, List.intersperse, List.append_assoc]

theorem printRanges_eq (env : Env) (ranges : List CharacterRange) :
    printRanges env ranges =
      (ranges.map (fun r => env.AsUC16 r.from_ ++ str "-" ++ env.AsUC16 r.to_)).flatten := by
  induction ranges with
  | nil => rfl
  | cons r rest ih => simp [printRanges, ih, List.append_assoc]

theorem VisitText_eq (env : Env) (visit : Nat → St → Res) (that : Nat) (n : RegExpNode)
    (elements : List TextElement) (on_success : Nat) (st : St) :
    VisitText env visit that n elements on_success st =
      visit on_success (st.write (str "  n" ++ showPtr that ++ str " [label=\""
        ++ List.intercalate (str " ") (elements.map (printElement env))
        ++ str "\", shape=box, peripheries=2];\n"
        ++ attributesRecord that n ++ attributesEdge that
        ++ edgeText that on_success ++ str ";\n")) := by
  simp [VisitText, St.write, printElements_eq, PrintAttributes_eq, edgeText,
    List.append_assoc]

theorem castChar_toNat (u : Nat) : (castChar u).toNat = u % 256 := by
  have hlt : u % 256 < 256 := Nat.mod_lt _ (by decide)
  have hv : (u % 256).isValidChar := Or.inl (by omega)
  simp [castChar, Char.ofNat, hv, Char.toNat, Char.ofNatAux, UInt32.toNat]

set_option maxRecDepth 100000 in
/-- C7 (counterexample): the atom with the single code unit 321 is written as
`A`, the character of its low eight bits (65), exactly as the atom with the code
unit 65 is; it is not written as the character of code unit 321. -/
theorem atom_code_unit_truncated :
    printElement sampleEnv (.ATOM [321]) = ['A'] ∧
    printElement sampleEnv (.ATOM [321]) ≠ [Char.ofNat 321] ∧
    printElement sampleEnv (.ATOM [321]) = printElement sampleEnv (.ATOM [65]) ∧
    (∃ st, DotPrint sampleEnv 2 [] 0 false wideAtomGraph = .ok st ∧
      st.os = str ("digraph G \x7b\n  graph [label=\"\"];\n"
        ++ "  n0x0 [label=\"A\", shape=box, peripheries=2];\n"
        ++ "  a0x0 [shape=Mrecord, color=grey, fontcolor=grey, margin=0.1, fontsize=10, "
        ++ "label=\"\x7b\x7d\"];\n"
        ++ "  a0x0 -> n0x0 [style=dashed, color=grey, arrowhead=none];\n"
        ++ "  n0x0 -> n0x1;\n"
        ++ "  n0x1 [style=bold, shape=point];\n"
        ++ "  a0x1 [shape=Mrecord, color=grey, fontcolor=grey, margin=0.1, fontsize=10, "
        ++ "label=\"\x7b\x7d\"];\n"
        ++ "  a0x1 -> n0x1 [style=dashed, color=grey, arrowhead=none];\n"
        ++ "\x7d\n")) :=
  ⟨by decide, by decide, by decide, ⟨_, rfl, rfl⟩⟩

set_option maxRecDepth 100000 in
/-- C7 (amended): `VisitText` declares the node with the label made of the
element texts in order, one space between consecutive elements, shape box and
peripheries=2; an atom is written one character per code unit, the character
whose code is the low eight bits of the code unit (`static_cast<char>`), which
is the code unit's own character when it is below 256; a class is written as
`[`, `^` iff negated, each range as low, `-`, high, then `]`; after the
attributes record comes exactly one edge to `on_success`, then the visit of
`on_success`.  For the atom `ab` and the negated class with the range `0-2`,
followed by an End node, the label is `ab [^0-2]`, there is one edge to the End
node, and the End node is declared with style=bold, shape=point and no outgoing
edge. -/
theorem VisitText_declaration (env : Env) :
    (∀ (visit : Nat → St → Res) (that : Nat) (n : RegExpNode) (elements : List TextElement)
        (on_success : Nat) (st : St),
      VisitText env visit that n elements on_success st =
        visit on_success (st.write (str "  n" ++ showPtr that ++ str " [label=\""
          ++ List.intercalate (str " ") (elements.map (printElement env))
          ++ str "\", shape=box, peripheries=2];\n"
          ++ attributesRecord that n ++ attributesEdge that
          ++ edgeText that on_success ++ str ";\n"))) ∧
    (∀ data : List Nat,
      printElement env (.ATOM data) = data.map (fun u => Char.ofNat (u % 256)) ∧
      (printElement env (.ATOM data)).map Char.toNat = data.map (fun u => u % 256) ∧
      ((∀ u ∈ data, u < 256) →
        (printElement env (.ATOM data)).map Char.toNat = data ∧
        printElement env (.ATOM data) = data.map Char.ofNat)) ∧
    (∀ (is_negated : Bool) (ranges : List CharacterRange),
      printElement env (.CHAR_CLASS is_negated ranges) =
        str "[" ++ (if is_negated then str "^" else [])
          ++ (ranges.map (fun r => env.AsUC16 r.from_ ++ str "-" ++ env.AsUC16 r.to_)).flatten
          ++ str "]") ∧
    (env.AsUC16 48 = str "0" → env.AsUC16 50 = str "2" →
      ∀ ignore_case : Bool, ∃ st,
        DotPrint env 2 [] 0 ignore_case textThenEndGraph = .ok st ∧
        st.trace = [0, 1] ∧
        st.os = str ("digraph G \x7b\n  graph [label=\"\"];\n"
          ++ "  n0x0 [label=\"ab [^0-2]\", shape=box, peripheries=2];\n"
          ++ "  a0x0 [shape=Mrecord, color=grey, fontcolor=grey, margin=0.1, fontsize=10, "
          ++ "label=\"\x7b\x7d\"];\n"
          ++ "  a0x0 -> n0x0 [style=dashed, color=grey, arrowhead=none];\n"
          ++ "  n0x0 -> n0x1;\n"
          ++ "  n0x1 [style=bold, shape=point];\n"
          ++ "  a0x1 [shape=Mrecord, color=grey, fontcolor=grey, margin=0.1, fontsize=10, "
          ++ "label=\"\x7b\x7d\"];\n"
          ++ "  a0x1 -> n0x1 [style=dashed, color=grey, arrowhead=none];\n"
          ++ "\x7d\n")) := by
  refine ⟨VisitText_eq env, ?_, ?_, ?_⟩
  · intro data
    have hnat : (printElement env (.ATOM data)).map Char.toNat = data.map (fun u => u % 256) := by
      simp only [printElement, List.map_map]
      exact List.map_congr_left (fun u _ => castChar_toNat u)
    refine ⟨rfl, hnat, fun hsmall => ⟨?_, ?_⟩⟩
    · rw [hnat]
      conv_rhs => rw [← List.map_id data]
      exact List.map_congr_left (fun u hu => Nat.mod_eq_of_lt (hsmall u hu))
    · simp only [printElement]
      exact List.map_congr_left (fun u hu => by
        simp only [castChar, Nat.mod_eq_of_lt (hsmall u hu)])
  · intro is_negated ranges
    simp [printElement, printRanges_eq]
  · intro h0 h2 ignore_case
    refine ⟨_, rfl, rfl, ?_⟩
    simp only [St.init, St.write, textThenEndGraph, plainNode, plainInfo, unboundLabel,
      printElements, printElement, printRanges, h0, h2]
    rfl

/-- C7 (witness): the scenario of the amended statement with `AsUC16` writing `0`
and `2` for the code units 48 and 50. -/
theorem VisitText_declaration_witness :
    ((∀ u ∈ [97, 98], u < 256) ∧
      (printElement sampleEnv (.ATOM [97, 98])).map Char.toNat = [97, 98] ∧
      printElement sampleEnv (.ATOM [97, 98]) = [97, 98].map Char.ofNat) ∧
    sampleEnv.AsUC16 48 = str "0" ∧ sampleEnv.AsUC16 50 = str "2" ∧
      ∀ ignore_case : Bool, ∃ st,
        DotPrint sampleEnv 2 [] 0 ignore_case textThenEndGraph = .ok st ∧
        st.trace = [0, 1] ∧
        st.os = str ("digraph G \x7b\n  graph [label=\"\"];\n"
          ++ "  n0x0 [label=\"ab [^0-2]\", shape=box, peripheries=2];\n"
          ++ "  a0x0 [shape=Mrecord, color=grey, fontcolor=grey, margin=0.1, fontsize=10, "
          ++ "label=\"\x7b\x7d\"];\n"
          ++ "  a0x0 -> n0x0 [style=dashed, color=grey, arrowhead=none];\n"
          ++ "  n0x0 -> n0x1;\n"
          ++ "  n0x1 [style=bold, shape=point];\n"
          ++ "  a0x1 [shape=Mrecord, color=grey, fontcolor=grey, margin=0.1, fontsize=10, "
          ++ "label=\"\x7b\x7d\"];\n"
          ++ "  a0x1 -> n0x1 [style=dashed, color=grey, arrowhead=none];\n"
          ++ "\x7d\n") :=
  ⟨⟨by decide, ((VisitText_declaration sampleEnv).2.1 [97, 98]).2.2 (by decide)⟩,
    rfl, rfl, (VisitText_declaration sampleEnv).2.2.2 rfl rfl⟩

theorem choiceEdges_eq (that : Nat) (alternatives : List GuardedAlternative) :
    choiceEdges that alternatives =
      (alternatives.map (fun alt => edgeText that alt.node)).flatten := by
  induction alternatives with
  | nil => rfl
  | cons alt rest ih => simp [choiceEdges, ih, edgeText, List.append_assoc]

/-- C8: with the dispatch-table mode off (the constant `kPrintDispatchTable`),
`VisitChoice` declares the node with the label `?` and then writes one edge per
alternative, from the choice node to that alternative's target, in the order of
the alternatives, before it renders the alternatives; the number of edges is
the number of alternatives.  For three alternatives the edges go to the three
targets in order. -/
theorem VisitChoice_edges (env : Env) (ignore_case : Bool) (accept : Nat → St → Res)
    (that : Nat) (n : RegExpNode) (table_ignore_case table_case : DispatchTable) (st : St) :
    kPrintDispatchTable = false ∧
    (∀ alternatives : List GuardedAlternative,
      VisitChoice env ignore_case accept that n alternatives table_ignore_case table_case st =
        acceptAlternatives accept alternatives
          (st.write (str "  n" ++ showPtr that ++ str " [shape=Mrecord, label=\"?\"];\n"
            ++ (alternatives.map (fun alt => edgeText that alt.node)).flatten)) ∧
      (alternatives.map (fun alt => edgeText that alt.node)).length = alternatives.length) ∧
    (∀ t0 t1 t2 : Nat,
      VisitChoice env ignore_case accept that n [⟨t0⟩, ⟨t1⟩, ⟨t2⟩] table_ignore_case
          table_case st =
        acceptAlternatives accept [⟨t0⟩, ⟨t1⟩, ⟨t2⟩]
          (st.write (str "  n" ++ showPtr that ++ str " [shape=Mrecord, label=\"?\"];\n"
            ++ str "  n" ++ showPtr that ++ str " -> n" ++ showPtr t0
            ++ str "  n" ++ showPtr that ++ str " -> n" ++ showPtr t1
            ++ str "  n" ++ showPtr that ++ str " -> n" ++ showPtr t2))) := by
  refine ⟨rfl, ?_, ?_⟩
  · intro alternatives
    rw [VisitChoice_eq, choiceEdges_eq]
    simp
  · intro t0 t1 t2
    rw [VisitChoice_eq]
    simp [choiceEdges, List.append_assoc]

/-- C9: `PrintAttributes` writes the attributes record whose label holds exactly
the present fields in the order `{NI}`, `{WI}`, `{SI}`, `{@|pos}` (each present
iff its flag is set, the last iff the label is bound), joined by single `|` with
none leading or trailing and nothing for no field, and then one edge from the
record to the node with style=dashed and arrowhead=none.  A node bound at
position 7 with only `follows_start_interest` set has exactly the fields `{SI}`
and `{@|7}`, joined by one `|`. -/
theorem PrintAttributes_fields (that : Nat) (n : RegExpNode) (os : List Char) :
    PrintAttributes that n os =
      os ++ str "  a" ++ showPtr that
        ++ str " [shape=Mrecord, color=grey, fontcolor=grey, margin=0.1, fontsize=10, label=\"\x7b"
        ++ List.intercalate (str "|") (attributeFields n)
        ++ str "\x7d\"];\n"
        ++ str "  a" ++ showPtr that ++ str " -> n" ++ showPtr that
        ++ str " [style=dashed, color=grey, arrowhead=none];\n" ∧
    attributeFields n =
      (if n.info.follows_newline_interest then [str "\x7bNI\x7d"] else [])
        ++ (if n.info.follows_word_interest then [str "\x7bWI\x7d"] else [])
        ++ (if n.info.follows_start_interest then [str "\x7bSI\x7d"] else [])
        ++ (if n.label.is_bound then [str "\x7b@|" ++ showNat n.label.pos ++ str "\x7d"]
            else []) ∧
    (∀ kind : NodeKind,
      attributeFields (startInterestAt7 kind) = [str "\x7bSI\x7d", str "\x7b@|7\x7d"] ∧
      List.intercalate (str "|") (attributeFields (startInterestAt7 kind))
        = str "\x7bSI\x7d|\x7b@|7\x7d") := by
  refine ⟨?_, ?_, fun kind => ⟨?_, ?_⟩⟩
  · rw [PrintAttributes_eq]
    simp only [attributesRecord, attributesEdge, List.append_assoc]
    rfl
  · simp only [attributeFields, bitField, positiveField]
    rfl
  · simp only [attributeFields, startInterestAt7, plainInfo]
    rfl
  · simp only [attributeFields, startInterestAt7, plainInfo]
    rfl

theorem VisitBackReference_eq (visit : Nat → St → Res) (that : Nat) (n : RegExpNode)
    (start_register end_register : Int) (on_success : Nat) (st : St) :
    VisitBackReference visit that n start_register end_register on_success st =
      visit on_success (st.write (str "  n" ++ showPtr that ++ str " [label=\"$"
        ++ showInt start_register ++ str "..$" ++ showInt end_register
        ++ str "\", shape=doubleoctagon];\n"
        ++ attributesRecord that n ++ attributesEdge that
        ++ edgeText that on_success ++ str ";\n")) := by
  simp [VisitBackReference, St.write, PrintAttributes_eq, edgeText, List.append_assoc]

theorem VisitEnd_eq (that : Nat) (n : RegExpNode) (st : St) :
    VisitEnd that n st =
      .ok (st.write (str "  n" ++ showPtr that ++ str " [style=bold, shape=point];\n"
        ++ attributesRecord that n ++ attributesEdge that)) := by
  simp [VisitEnd, St.write, PrintAttributes_eq, List.append_assoc]

theorem VisitAssertion_eq (visit : Nat → St → Res) (that : Nat) (n : RegExpNode)
    (assertion_type : AssertionType) (on_success : Nat) (st : St) :
    VisitAssertion visit that n assertion_type on_success st =
      visit on_success (st.write (str "  n" ++ showPtr that ++ str " ["
        ++ assertionText assertion_type ++ str "];\n"
        ++ attributesRecord that n ++ attributesEdge that
        ++ edgeText that on_success ++ str ";\n")) := by
  simp [VisitAssertion, St.write, PrintAttributes_eq, edgeText, List.append_assoc]

theorem VisitAction_eq (visit : Nat → St → Res) (that : Nat) (n : RegExpNode)
    (data : ActionData) (on_success : Nat) (st : St) :
    VisitAction visit that n data on_success st =
      visit on_success (st.write (str "  n" ++ showPtr that ++ str " ["
        ++ actionText data ++ str "];\n"
        ++ attributesRecord that n ++ attributesEdge that
        ++ edgeText that on_success ++ str ";\n")) := by
  simp [VisitAction, St.write, PrintAttributes_eq, edgeText, List.append_assoc]

set_option maxRecDepth 100000 in
/-- C10 (counterexample): an End node with the three flags false and an unbound
label is still followed by an attributes record, with the empty label `{}`, and
by the dashed edge from that record. -/
theorem plain_node_has_attributes_record :
    plainInfo.follows_newline_interest = false ∧ plainInfo.follows_word_interest = false ∧
    plainInfo.follows_start_interest = false ∧ unboundLabel.is_bound = false ∧
    ∃ st, DotPrint sampleEnv 1 [] 0 false endOnlyGraph = .ok st ∧
      st.os = graphHeader [] ++ str "  n0x0 [style=bold, shape=point];\n"
        ++ str ("  a0x0 [shape=Mrecord, color=grey, fontcolor=grey, margin=0.1, fontsize=10, "
          ++ "label=\"\x7b\x7d\"];\n")
        ++ str "  a0x0 -> n0x0 [style=dashed, color=grey, arrowhead=none];\n"
        ++ graphFooter :=
  ⟨rfl, rfl, rfl, rfl, _, rfl, rfl⟩

/-- C10 (amended): every renderer other than the Choice one writes the
attributes record of its node and the dashed edge from it, whatever the flags
and the label: the text a run of the renderer adds to the stream contains the
record followed by the edge.  With the three flags false and the label unbound
the record has the empty label `{}`. -/
theorem attributes_record_always_written (env : Env) (ignore_case : Bool) (fuel that : Nat)
    (st st' : St) (n : RegExpNode) (hn : st.heap[that]? = some n)
    (hk : ∀ alternatives t1 t2, n.kind ≠ .Choice alternatives t1 t2)
    (h : Accept env ignore_case fuel that st = .ok st') :
    (∃ before after, st'.os =
      st.os ++ before ++ attributesRecord that n ++ attributesEdge that ++ after) ∧
    (n.info.follows_newline_interest = false → n.info.follows_word_interest = false →
      n.info.follows_start_interest = false → n.label.is_bound = false →
      attributesRecord that n = str "  a" ++ showPtr that
        ++ str (" [shape=Mrecord, color=grey, fontcolor=grey, margin=0.1, fontsize=10, "
          ++ "label=\"\x7b\x7d\"];\n")) := by
  constructor
  · cases fuel with
    | zero => simp [Accept] at h
    | succ fuel =>
      have hacc : ∀ n st st', Accept env ignore_case fuel n st = .ok st' → Extends st st' :=
        fun n st st' h => (Accept_extends env ignore_case fuel n st st' h).1
      unfold Accept at h
      rw [hn] at h
      simp only at h
      cases hkind : n.kind with
      | Choice alts t1 t2 => exact absurd hkind (hk alts t1 t2)
      | Text elements on_success =>
        rw [hkind] at h
        simp only [VisitText_eq] at h
        obtain ⟨⟨w, hw⟩, _⟩ := (VisitVia_extends hacc h).1
        refine ⟨(str "  n" ++ showPtr that ++ str " [label=\""
          ++ List.intercalate (str " ") (elements.map (printElement env))
          ++ str "\", shape=box, peripheries=2];\n"),
          edgeText that on_success ++ str ";\n" ++ w, ?_⟩
        rw [hw]
        simp only [St.write, List.append_assoc]
      | BackReference s e on_success =>
        rw [hkind] at h
        simp only [VisitBackReference_eq] at h
        obtain ⟨⟨w, hw⟩, _⟩ := (VisitVia_extends hacc h).1
        refine ⟨(str "  n" ++ showPtr that ++ str " [label=\"$"
          ++ showInt s ++ str "..$" ++ showInt e ++ str "\", shape=doubleoctagon];\n"),
          edgeText that on_success ++ str ";\n" ++ w, ?_⟩
        rw [hw]
        simp only [St.write, List.append_assoc]
      | End =>
        rw [hkind] at h
        simp only [VisitEnd_eq] at h
        cases h
        refine ⟨str "  n" ++ showPtr that ++ str " [style=bold, shape=point];\n", [], ?_⟩
        simp only [St.write, List.append_assoc, List.append_nil]
      | Assertion t on_success =>
        rw [hkind] at h
        simp only [VisitAssertion_eq] at h
        obtain ⟨⟨w, hw⟩, _⟩ := (VisitVia_extends hacc h).1
        refine ⟨(str "  n" ++ showPtr that ++ str " [" ++ assertionText t ++ str "];\n"),
          edgeText that on_success ++ str ";\n" ++ w, ?_⟩
        rw [hw]
        simp only [St.write, List.append_assoc]
      | Action d on_success =>
        rw [hkind] at h
        simp only [VisitAction_eq] at h
        obtain ⟨⟨w, hw⟩, _⟩ := (VisitVia_extends hacc h).1
        refine ⟨(str "  n" ++ showPtr that ++ str " [" ++ actionText d ++ str "];\n"),
          edgeText that on_success ++ str ";\n" ++ w, ?_⟩
        rw [hw]
        simp only [St.write, List.append_assoc]
  · intro h1 h2 h3 h4
    simp only [attributesRecord, attributeFields, h1, h2, h3, h4, List.append_assoc]
    rfl

/-- C10 (witness): the amended statement at the End node of `endOnlyGraph`, whose
flags are all false and whose label is unbound. -/
theorem attributes_record_always_written_witness :
    (St.init endOnlyGraph).heap[0]? = some (plainNode .End) ∧
    Accept sampleEnv false 1 0 (St.init endOnlyGraph) = .ok endRendered ∧
    (∃ before after, endRendered.os = (St.init endOnlyGraph).os ++ before
      ++ attributesRecord 0 (plainNode .End) ++ attributesEdge 0 ++ after) ∧
    ((plainNode .End).info.follows_newline_interest = false →
      (plainNode .End).info.follows_word_interest = false →
      (plainNode .End).info.follows_start_interest = false →
      (plainNode .End).label.is_bound = false →
      attributesRecord 0 (plainNode .End) = str "  a" ++ showPtr 0
        ++ str (" [shape=Mrecord, color=grey, fontcolor=grey, margin=0.1, fontsize=10, "
          ++ "label=\"\x7b\x7d\"];\n")) :=
  ⟨rfl, rfl, attributes_record_always_written sampleEnv false 1 0 (St.init endOnlyGraph)
    endRendered (plainNode .End) rfl (fun _ _ _ h => by cases h) rfl⟩

/-! ## Action, edge and ordering claims -/

set_option maxRecDepth 100000 in
/-- C11: an Action node that increments register `r` is declared with the label
`$r++` (decimal) and shape octagon; one that sets a register with `$reg:=value`
and one that stores the position with `$reg:=$pos`, both with shape octagon; the
two submatch kinds are declared with shape septagon.  For register 2 the
declaration reads `[label="$2++", shape=octagon]`. -/
theorem VisitAction_register_labels (visit : Nat → St → Res) (that : Nat) (n : RegExpNode)
    (on_success : Nat) (st : St) :
    (∀ data : ActionData,
      VisitAction visit that n data on_success st =
        visit on_success (st.write (str "  n" ++ showPtr that ++ str " ["
          ++ actionText data ++ str "];\n"
          ++ attributesRecord that n ++ attributesEdge that
          ++ edgeText that on_success ++ str ";\n"))) ∧
    (∀ r : Int, actionText (.INCREMENT_REGISTER r) =
      str "label=\"$" ++ showInt r ++ str "++\", shape=octagon") ∧
    (∀ reg value : Int, actionText (.SET_REGISTER reg value) =
      str "label=\"$" ++ showInt reg ++ str ":=" ++ showInt value ++ str "\", shape=octagon") ∧
    (∀ reg : Int, actionText (.STORE_POSITION reg) =
      str "label=\"$" ++ showInt reg ++ str ":=$pos\", shape=octagon") ∧
    (∀ reg : Int, actionText (.BEGIN_SUBMATCH reg) =
      str "label=\"$" ++ showInt reg ++ str ":=$pos,begin\", shape=septagon") ∧
    actionText .POSITIVE_SUBMATCH_SUCCESS = str "label=\"escape\", shape=septagon" ∧
    actionText (.INCREMENT_REGISTER 2) = str "label=\"$2++\", shape=octagon" ∧
    (∃ s, DotPrint sampleEnv 2 [] 0 false incrementThenEndGraph = .ok s ∧
      s.os = str ("digraph G \x7b\n  graph [label=\"\"];\n"
        ++ "  n0x0 [label=\"$2++\", shape=octagon];\n"
        ++ "  a0x0 [shape=Mrecord, color=grey, fontcolor=grey, margin=0.1, fontsize=10, "
        ++ "label=\"\x7b\x7d\"];\n"
        ++ "  a0x0 -> n0x0 [style=dashed, color=grey, arrowhead=none];\n"
        ++ "  n0x0 -> n0x1;\n"
        ++ "  n0x1 [style=bold, shape=point];\n"
        ++ "  a0x1 [shape=Mrecord, color=grey, fontcolor=grey, margin=0.1, fontsize=10, "
        ++ "label=\"\x7b\x7d\"];\n"
        ++ "  a0x1 -> n0x1 [style=dashed, color=grey, arrowhead=none];\n"
        ++ "\x7d\n")) :=
  ⟨fun data => VisitAction_eq visit that n data on_success st, fun _ => rfl, fun _ _ => rfl,
    fun _ => rfl, fun _ => rfl, rfl, rfl, ⟨_, rfl, rfl⟩⟩

/-- C12 (counterexample): for the captures range from 1 to 2 the label of the
ClearCaptures declaration is `clear $1 to $2`, not `$1..$2`, which is the label
a BackReference node with registers 1 and 2 gets. -/
theorem clear_captures_label_differs :
    actionText (.CLEAR_CAPTURES 1 2) = str "label=\"clear $1 to $2\", shape=septagon" ∧
    actionText (.CLEAR_CAPTURES 1 2) ≠ str "label=\"$1..$2\", shape=septagon" ∧
    nodeDeclaration sampleEnv 0 (.Action (.CLEAR_CAPTURES 1 2) 1)
      = str "  n0x0 [label=\"clear $1 to $2\", shape=septagon];\n" ∧
    nodeDeclaration sampleEnv 0 (.BackReference 1 2 1)
      = str "  n0x0 [label=\"$1..$2\", shape=doubleoctagon];\n" := by
  refine ⟨rfl, by decide, rfl, rfl⟩

/-- C12 (amended): an Action node that clears the captures from `f` to `t` is
declared with the label `clear $f to $t` and shape septagon. -/
theorem VisitAction_clear_captures (visit : Nat → St → Res) (that : Nat) (n : RegExpNode)
    (f t : Int) (on_success : Nat) (st : St) :
    VisitAction visit that n (.CLEAR_CAPTURES f t) on_success st =
      visit on_success (st.write (str "  n" ++ showPtr that ++ str " [label=\"clear $"
        ++ showInt f ++ str " to $" ++ showInt t ++ str "\", shape=septagon];\n"
        ++ attributesRecord that n ++ attributesEdge that
        ++ edgeText that on_success ++ str ";\n")) := by
  rw [VisitAction_eq]
  simp only [actionText, List.append_assoc]
  rfl

set_option maxRecDepth 100000 in
/-- C13 (the code breaks the claim): the edges `VisitChoice` writes with the
dispatch-table mode off carry no `;` and no newline.  For a Choice node with
two alternatives the two edges and the next declaration share one line. -/
theorem choice_edges_unterminated :
    choiceEdges 0 [⟨1⟩, ⟨2⟩] = str "  n0x0 -> n0x1  n0x0 -> n0x2" ∧
    ';' ∉ choiceEdges 0 [⟨1⟩, ⟨2⟩] ∧ '\n' ∉ choiceEdges 0 [⟨1⟩, ⟨2⟩] ∧
    (∃ s, DotPrint sampleEnv 2 [] 0 false choiceTwoEndsGraph = .ok s ∧
      s.os = str ("digraph G \x7b\n  graph [label=\"\"];\n"
        ++ "  n0x0 [shape=Mrecord, label=\"?\"];\n"
        ++ "  n0x0 -> n0x1  n0x0 -> n0x2"
        ++ "  n0x1 [style=bold, shape=point];\n"
        ++ "  a0x1 [shape=Mrecord, color=grey, fontcolor=grey, margin=0.1, fontsize=10, "
        ++ "label=\"\x7b\x7d\"];\n"
        ++ "  a0x1 -> n0x1 [style=dashed, color=grey, arrowhead=none];\n"
        ++ "  n0x2 [style=bold, shape=point];\n"
        ++ "  a0x2 [shape=Mrecord, color=grey, fontcolor=grey, margin=0.1, fontsize=10, "
        ++ "label=\"\x7b\x7d\"];\n"
        ++ "  a0x2 -> n0x2 [style=dashed, color=grey, arrowhead=none];\n"
        ++ "\x7d\n")) := by
  refine ⟨rfl, by decide, by decide, ⟨_, rfl, rfl⟩⟩

set_option maxRecDepth 100000 in
/-- C14 (the code breaks the claim): with the dispatch-table mode off
`VisitChoice` writes no attributes record.  A Choice node bound at position 7
with `follows_start_interest` set is declared and followed at once by its edge;
no statement for `a0x0` appears in the output. -/
theorem choice_without_attributes_record :
    (∃ s, DotPrint sampleEnv 2 [] 0 false flaggedChoiceGraph = .ok s ∧
      s.os = str ("digraph G \x7b\n  graph [label=\"\"];\n"
        ++ "  n0x0 [shape=Mrecord, label=\"?\"];\n"
        ++ "  n0x0 -> n0x1"
        ++ "  n0x1 [style=bold, shape=point];\n"
        ++ "  a0x1 [shape=Mrecord, color=grey, fontcolor=grey, margin=0.1, fontsize=10, "
        ++ "label=\"\x7b\x7d\"];\n"
        ++ "  a0x1 -> n0x1 [style=dashed, color=grey, arrowhead=none];\n"
        ++ "\x7d\n") ∧
      ¬ (str "a0x0" <:+: s.os)) ∧
    attributeFields (startInterestAt7 (.Choice [⟨1⟩] [] []))
      = [str "\x7bSI\x7d", str "\x7b@|7\x7d"] := by
  refine ⟨⟨_, rfl, rfl, by decide⟩, ?_⟩
  simp only [attributeFields, startInterestAt7, plainInfo]
  rfl

/-- C16 (the code breaks the claim): after the pass the visited flags do not
mark the rendered nodes.  On the Choice node with two alternatives to one End
node the End renderer runs twice, and the End node is still unvisited when
`PrintNode` returns. -/
theorem rendered_node_left_unvisited :
    ∃ s, DotPrint sampleEnv 2 [] 0 false sharedTargetGraph = .ok s ∧
      allUnvisited sharedTargetGraph = true ∧
      s.trace = [0, 1, 1] ∧ isVisited s.heap 0 = true ∧ isVisited s.heap 1 = false :=
  ⟨_, rfl, rfl, rfl, rfl, rfl⟩

theorem VisitVia_visited {accept : Nat → St → Res} {node : Nat} {st : St}
    (h : isVisited st.heap node = true) : VisitVia accept node st = .ok st := by
  unfold isVisited at h
  unfold VisitVia
  cases hn : st.heap[node]? with
  | none => rw [hn] at h; cases h
  | some n =>
    rw [hn] at h
    simp only at h
    simp [h]

/-- A run of the renderer of a node with an `on_success` continuation: the log
entry, the declaration, the attributes record, the edge, then the visit of the
continuation. -/
theorem Accept_on_success (env : Env) (ignore_case : Bool) (fuel that : Nat) (st : St)
    (n : RegExpNode) (on_success : Nat) (hn : st.heap[that]? = some n)
    (hs : onSuccessOf n.kind = some on_success) :
    Accept env ignore_case (fuel + 1) that st =
      Visit env ignore_case fuel on_success
        { heap := st.heap
          os := st.os ++ (nodeDeclaration env that n.kind ++ attributesRecord that n
            ++ attributesEdge that ++ edgeText that on_success ++ str ";\n")
          trace := st.trace ++ [that] } := by
  unfold Accept
  rw [hn]
  simp only [Visit]
  cases hk : n.kind with
  | Choice a t1 t2 => rw [hk] at hs; cases hs
  | End => rw [hk] at hs; cases hs
  | Text elements s =>
    rw [hk] at hs
    cases hs
    simp only [VisitText_eq, nodeDeclaration, St.write, List.append_assoc]
  | BackReference a b s =>
    rw [hk] at hs
    cases hs
    simp only [VisitBackReference_eq, nodeDeclaration, St.write, List.append_assoc]
  | Assertion t s =>
    rw [hk] at hs
    cases hs
    simp only [VisitAssertion_eq, nodeDeclaration, St.write, List.append_assoc]
  | Action d s =>
    rw [hk] at hs
    cases hs
    simp only [VisitAction_eq, nodeDeclaration, St.write, List.append_assoc]

/-- C15: the renderer of a node with a single `on_success` continuation (Text,
BackReference, Assertion, Action) writes, after the node's declaration and its
attributes record, exactly one edge statement to `on_success`, and only then
visits `on_success`; when `on_success` is already visited the edge is written
all the same and nothing follows it. -/
theorem on_success_edge_always_written (env : Env) (ignore_case : Bool) (fuel that : Nat)
    (st : St) (n : RegExpNode) (on_success : Nat) (hn : st.heap[that]? = some n)
    (hs : onSuccessOf n.kind = some on_success) :
    Accept env ignore_case (fuel + 1) that st =
      Visit env ignore_case fuel on_success
        { heap := st.heap
          os := st.os ++ (nodeDeclaration env that n.kind ++ attributesRecord that n
            ++ attributesEdge that ++ edgeText that on_success ++ str ";\n")
          trace := st.trace ++ [that] } ∧
    (isVisited st.heap on_success = true →
      Accept env ignore_case (fuel + 1) that st =
        .ok { heap := st.heap
              os := st.os ++ (nodeDeclaration env that n.kind ++ attributesRecord that n
                ++ attributesEdge that ++ edgeText that on_success ++ str ";\n")
              trace := st.trace ++ [that] }) := by
  have h := Accept_on_success env ignore_case fuel that st n on_success hn hs
  refine ⟨h, fun hv => ?_⟩
  rw [h]
  exact VisitVia_visited hv

set_option maxRecDepth 100000 in
/-- C15 (witness): in the loop of a Text node and an Action node, with the Text
node already visited, the Action renderer still writes its edge back to the
Text node. -/
theorem on_success_edge_always_written_witness :
    (St.init loopGraphEntered).heap[1]? = some (plainNode (.Action (.INCREMENT_REGISTER 0) 0)) ∧
    onSuccessOf (plainNode (.Action (.INCREMENT_REGISTER 0) 0)).kind = some 0 ∧
    isVisited (St.init loopGraphEntered).heap 0 = true ∧
    Accept sampleEnv false 1 1 (St.init loopGraphEntered) =
      .ok { heap := loopGraphEntered
            os := str ("  n0x1 [label=\"$0++\", shape=octagon];\n"
              ++ "  a0x1 [shape=Mrecord, color=grey, fontcolor=grey, margin=0.1, fontsize=10, "
              ++ "label=\"\x7b\x7d\"];\n"
              ++ "  a0x1 -> n0x1 [style=dashed, color=grey, arrowhead=none];\n"
              ++ "  n0x1 -> n0x0;\n")
            trace := [1] } :=
  ⟨rfl, rfl, rfl,
    ((on_success_edge_always_written sampleEnv false 0 1 (St.init loopGraphEntered)
      (plainNode (.Action (.INCREMENT_REGISTER 0) 0)) 0 rfl rfl).2 rfl).trans rfl⟩

/-! ## Dispatch-table printer claims -/

theorem intercalate_cons (sep x : List Char) (xs : List (List Char)) :
    List.intercalate sep (x :: xs) = x ++ (xs.map (fun y => sep ++ y)).flatten := by
  induction xs generalizing x with
  | nil => simp [List.intercalate, List.intersperse]
  | cons y ys ih =>
    have h := ih y
    simp only [List.intercalate, List.intersperse, List.flatten_cons, List.map_cons] at h ⊢
    rw [h]
    simp [List.append_assoc]

theorem headerLoop_pos (from_ : Nat) (out_set : OutSet) :
    ∀ (is : List Nat) (priority : Nat) (os : List Char), 0 < priority →
      headerLoop from_ out_set is priority os =
        os ++ ((headerFields from_ (is.filter out_set.Get) priority).map
          (fun f => str "|" ++ f)).flatten := by
  intro is
  induction is with
  | nil => intro priority os _; simp [headerLoop, headerFields]
  | cons i rest ih =>
    intro priority os hp
    by_cases hg : out_set.Get i = true
    · simp only [headerLoop, hg, if_true, List.filter_cons_of_pos, headerFields,
        List.map_cons, List.flatten_cons]
      rw [ih (priority + 1) _ (Nat.succ_pos _)]
      simp [hp, headerField, List.append_assoc]
    · have hf : (i :: rest).filter out_set.Get = rest.filter out_set.Get := by simp [hg]
      simp only [headerLoop, hg, hf]
      simpa using ih priority os hp

theorem headerLoop_zero (from_ : Nat) (out_set : OutSet) :
    ∀ (is : List Nat) (os : List Char),
      headerLoop from_ out_set is 0 os =
        os ++ List.intercalate (str "|") (headerFields from_ (is.filter out_set.Get) 0) := by
  intro is
  induction is with
  | nil => intro os; simp [headerLoop, headerFields, List.intercalate]
  | cons i rest ih =>
    intro os
    by_cases hg : out_set.Get i = true
    · simp only [headerLoop, hg, if_true, List.filter_cons_of_pos, headerFields]
      rw [headerLoop_pos from_ out_set rest (0 + 1) _ (Nat.succ_pos _), intercalate_cons]
      simp [headerField, List.append_assoc]
    · have hf : (i :: rest).filter out_set.Get = rest.filter out_set.Get := by simp [hg]
      simp only [headerLoop, hg, hf]
      simpa using ih os

theorem headerCall_eq (env : Env) (p : TableEntryHeaderPrinter) (from_ : Nat) (entry : Entry) :
    TableEntryHeaderPrinter.Call env p from_ entry =
      { first_ := false
        os_ := p.os_ ++ (if p.first_ then [] else str "|") ++ headerCell env from_ entry } := by
  unfold TableEntryHeaderPrinter.Call
  simp only [headerLoop_zero, headerCell, outSetMembers]
  cases p.first_ <;> simp [List.append_assoc]

theorem headerForEach_rest (env : Env) :
    ∀ (table : DispatchTable) (p : TableEntryHeaderPrinter), p.first_ = false →
      (headerForEach env table p).os_ =
        p.os_ ++ ((table.map (fun e => headerCell env e.1 e.2)).map
          (fun c => str "|" ++ c)).flatten := by
  intro table
  induction table with
  | nil => intro p _; simp [headerForEach]
  | cons e rest ih =>
    intro p hp
    obtain ⟨from_, entry⟩ := e
    simp only [headerForEach, List.map_cons, List.flatten_cons]
    rw [ih _ (by rw [headerCall_eq]), headerCall_eq]
    simp [hp, List.append_assoc]

theorem headerForEach_first (env : Env) (table : DispatchTable) (os : List Char) :
    (headerForEach env table { first_ := true, os_ := os }).os_ =
      os ++ List.intercalate (str "|") (table.map (fun e => headerCell env e.1 e.2)) := by
  cases table with
  | nil => simp [headerForEach, List.intercalate]
  | cons e rest =>
    obtain ⟨from_, entry⟩ := e
    simp only [headerForEach, List.map_cons]
    rw [headerForEach_rest env rest _ (by rw [headerCall_eq]), headerCall_eq, intercalate_cons]
    simp [List.append_assoc]

theorem headerFields_getElem? (from_ : Nat) :
    ∀ (ms : List Nat) (priority k : Nat),
      (headerFields from_ ms priority)[k]? =
        ms[k]?.map (fun i => headerField from_ i (priority + k)) := by
  intro ms
  induction ms with
  | nil => intro priority k; simp [headerFields]
  | cons i rest ih =>
    intro priority k
    cases k with
    | zero => simp [headerFields]
    | succ k =>
      simp only [headerFields, List.getElem?_cons_succ, ih]
      congr 1
      funext j
      congr 1
      omega

theorem outSetMembers_pairwise (env : Env) (out_set : OutSet) :
    (outSetMembers env out_set).Pairwise (fun a b => a < b) :=
  List.Pairwise.sublist (List.filter_sublist _) (List.pairwise_lt_range _)

/-- C17: `TableEntryHeaderPrinter::Call` writes one cell per entry, with `|`
before it unless it is the first; the sub-fields of the cell are the members
`i < kFirstLimit` of the entry's set in ascending order, one each, the k-th of
them shown with the number k (counted from 0 in every cell), with one `|`
between consecutive sub-fields; over a table the cells are joined by single
`|` with none before the first. -/
theorem TableEntryHeaderPrinter_cells (env : Env) :
    (∀ (p : TableEntryHeaderPrinter) (from_ : Nat) (entry : Entry),
      TableEntryHeaderPrinter.Call env p from_ entry =
        { first_ := false
          os_ := p.os_ ++ (if p.first_ then [] else str "|")
            ++ (str "\x7b\\" ++ env.AsUC16 from_ ++ str "-\\" ++ env.AsUC16 entry.to_
              ++ str "|\x7b"
              ++ List.intercalate (str "|")
                  (headerFields from_ (outSetMembers env entry.out_set) 0)
              ++ str "\x7d\x7d") }) ∧
    (∀ (table : DispatchTable) (os : List Char),
      (headerForEach env table { first_ := true, os_ := os }).os_ =
        os ++ List.intercalate (str "|") (table.map (fun e => headerCell env e.1 e.2))) ∧
    (∀ (out_set : OutSet) (i : Nat),
      i ∈ outSetMembers env out_set ↔ i < env.kFirstLimit ∧ out_set.Get i = true) ∧
    (∀ out_set : OutSet, (outSetMembers env out_set).Pairwise (fun a b => a < b)) ∧
    (∀ (from_ : Nat) (ms : List Nat) (k : Nat),
      (headerFields from_ ms 0)[k]? = ms[k]?.map (fun i =>
        str "<s" ++ showNat from_ ++ str "o" ++ showNat i ++ str "> " ++ showNat k)) ∧
    headerCell sampleEnv 97 { to_ := 122, out_set := { members := [3, 1] } }
      = str "\x7b\\a-\\z|\x7b<s97o1> 0|<s97o3> 1\x7d\x7d" := by
  refine ⟨fun p from_ entry => headerCall_eq env p from_ entry,
    headerForEach_first env, ?_, outSetMembers_pairwise env, ?_, by decide⟩
  · intro out_set i
    simp [outSetMembers, List.mem_filter]
  · intro from_ ms k
    rw [headerFields_getElem?]
    simp [headerField]

theorem bodyLoop_eq (choice : Nat) (alternatives : List GuardedAlternative) (from_ : Nat)
    (out_set : OutSet) :
    ∀ (is : List Nat) (os : List Char),
      (∀ i ∈ is.filter out_set.Get, i < alternatives.length) →
      bodyLoop choice alternatives from_ out_set is os =
        .ok (os ++ ((is.filter out_set.Get).map
          (fun i => bodyEdge choice from_ i (alternativeTarget alternatives i))).flatten) := by
  intro is
  induction is with
  | nil => intro os _; simp [bodyLoop]
  | cons i rest ih =>
    intro os h
    by_cases hg : out_set.Get i = true
    · have hf : (i :: rest).filter out_set.Get = i :: rest.filter out_set.Get := by simp [hg]
      rw [hf] at h ⊢
      have hi : i < alternatives.length := h i (List.mem_cons_self _ _)
      have hget : alternatives[i]? = some alternatives[i] := List.getElem?_eq_getElem hi
      simp only [bodyLoop, hg, if_true, hget, List.map_cons, List.flatten_cons]
      rw [ih _ (fun j hj => h j (List.mem_cons_of_mem _ hj))]
      simp [bodyEdge, alternativeTarget, hget, List.append_assoc]
    · have hf : (i :: rest).filter out_set.Get = rest.filter out_set.Get := by simp [hg]
      rw [hf] at h ⊢
      simp only [bodyLoop, hg]
      simpa using ih os h

/-- C18 (counterexample): for the entry of the range starting at 97 whose set
holds the single member 1, the header gives that member the priority 0, and the
body edge leaves the port `s97o1`, named after the member index 1, not the port
`s97o0` that the pair (97, priority 0) would name. -/
theorem body_port_named_by_member_index :
    headerCell sampleEnv 97 sampleEntry = str "\x7b\\a-\\z|\x7b<s97o1> 0\x7d\x7d" ∧
    ∃ os, TableEntryBodyPrinter.Call sampleEnv 0 sampleAlternatives [] 97 sampleEntry = .ok os ∧
      os = str "    n0x0:s97o1 -> n0x6;\n" ∧ os ≠ bodyEdge 0 97 0 6 :=
  ⟨by decide, _, rfl, by decide, by decide⟩

/-- C18 (amended): for an entry with range start `from_`, `TableEntryBodyPrinter::Call`
writes one edge per member `i` of the set, in ascending order; the edge leaves
the port `s<from_>o<i>` of the choice node, named by the range start and the
member index `i`, which is the port the header printer declares for that member
and shows as its priority, and it leads to the target of alternative `i`. -/
theorem body_edges_from_member_ports (env : Env) (choice : Nat)
    (alternatives : List GuardedAlternative) (os : List Char) (from_ : Nat) (entry : Entry)
    (h : ∀ i ∈ outSetMembers env entry.out_set, i < alternatives.length) :
    TableEntryBodyPrinter.Call env choice alternatives os from_ entry =
      .ok (os ++ ((outSetMembers env entry.out_set).map (fun i =>
        str "    n" ++ showPtr choice ++ str ":" ++ portName from_ i ++ str " -> n"
          ++ showPtr (alternativeTarget alternatives i) ++ str ";\n")).flatten) ∧
    (∀ i, i ∈ outSetMembers env entry.out_set → ∃ alt, alternatives[i]? = some alt ∧
      alternativeTarget alternatives i = alt.node) ∧
    (∀ k : Nat, (headerFields from_ (outSetMembers env entry.out_set) 0)[k]? =
      (outSetMembers env entry.out_set)[k]?.map (fun i =>
        str "<" ++ portName from_ i ++ str "> " ++ showNat k)) := by
  refine ⟨?_, ?_, ?_⟩
  · unfold TableEntryBodyPrinter.Call
    rw [bodyLoop_eq choice alternatives from_ entry.out_set _ os h]
    simp only [outSetMembers, bodyEdge, portName, List.append_assoc]
    rfl
  · intro i hi
    have hlt := h i hi
    exact ⟨alternatives[i], List.getElem?_eq_getElem hlt, by
      simp [alternativeTarget, List.getElem?_eq_getElem hlt]⟩
  · intro k
    rw [headerFields_getElem?]
    simp only [headerField, portName, List.append_assoc, Nat.zero_add]
    rfl

/-- C18 (witness): the entry with the single member 1 and two alternatives. -/
theorem body_edges_from_member_ports_witness :
    (∀ i ∈ outSetMembers sampleEnv sampleEntry.out_set, i < sampleAlternatives.length) ∧
    TableEntryBodyPrinter.Call sampleEnv 0 sampleAlternatives [] 97 sampleEntry =
      .ok ([] ++ ((outSetMembers sampleEnv sampleEntry.out_set).map (fun i =>
        str "    n" ++ showPtr 0 ++ str ":" ++ portName 97 i ++ str " -> n"
          ++ showPtr (alternativeTarget sampleAlternatives i) ++ str ";\n")).flatten) :=
  ⟨by decide, (body_edges_from_member_ports sampleEnv 0 sampleAlternatives [] 97 sampleEntry
    (by decide)).1⟩

/-! ## Passes over graphs without Choice nodes -/

theorem setVisited_length (heap : List RegExpNode) (node : Nat) :
    (setVisited heap node).length = heap.length := by
  unfold setVisited
  cases heap[node]? <;> simp

theorem setVisited_sameNodes (heap : List RegExpNode) (node : Nat) :
    (setVisited heap node).map unvisit = heap.map unvisit := by
  unfold setVisited
  cases hn : heap[node]? with
  | none => rfl
  | some n =>
    apply List.ext_getElem?
    intro m
    simp only [List.getElem?_map, List.getElem?_set]
    by_cases hm : node = m
    · subst hm
      have hlt : node < heap.length := by
        rcases Nat.lt_or_ge node heap.length with h1 | h1
        · exact h1
        · rw [List.getElem?_eq_none h1] at hn; cases hn
      simp [hlt, hn, unvisit]
    · simp [hm]

theorem isVisited_setVisited_iff {heap : List RegExpNode} {node : Nat} {n : RegExpNode}
    (hn : heap[node]? = some n) (m : Nat) :
    isVisited (setVisited heap node) m = true ↔ isVisited heap m = true ∨ m = node := by
  constructor
  · intro h
    by_cases hm : m = node
    · exact Or.inr hm
    · left
      unfold setVisited at h
      rw [hn] at h
      simp only [isVisited, List.getElem?_set_ne (Ne.symm hm)] at h
      exact h
  · rintro (h | h)
    · exact isVisited_setVisited_mono node m h
    · subst h
      exact isVisited_setVisited_self hn

theorem sameNodes_lookup {heap0 heap : List RegExpNode} (h : SameNodes heap0 heap) {m : Nat}
    {n : RegExpNode} (hn : heap[m]? = some n) :
    ∃ n0, heap0[m]? = some n0 ∧ unvisit n = unvisit n0 := by
  have h1 := congrArg (fun l => l[m]?) h
  simp only [List.getElem?_map, hn, Option.map_some'] at h1
  cases h0 : heap0[m]? with
  | none => rw [h0] at h1; cases h1
  | some n0 =>
    rw [h0] at h1
    simp only [Option.map_some', Option.some.injEq] at h1
    exact ⟨n0, rfl, h1⟩

theorem sameNodes_length {heap0 heap : List RegExpNode} (h : SameNodes heap0 heap) :
    heap.length = heap0.length := by
  have := congrArg List.length h
  simpa using this

theorem unvisit_kind {n n0 : RegExpNode} (h : unvisit n = unvisit n0) : n.kind = n0.kind := by
  have h1 : (unvisit n).kind = (unvisit n0).kind := by rw [h]
  exact h1

theorem unvisit_statements (env : Env) (that : Nat) {n n0 : RegExpNode}
    (h : unvisit n = unvisit n0) : nodeStatements env that n = nodeStatements env that n0 := by
  have h1 : nodeStatements env that n = nodeStatements env that (unvisit n) := rfl
  have h2 : nodeStatements env that n0 = nodeStatements env that (unvisit n0) := rfl
  rw [h1, h2, h]

theorem Accept_end (env : Env) (ignore_case : Bool) (fuel that : Nat) (st : St)
    (n : RegExpNode) (hn : st.heap[that]? = some n) (hk : n.kind = .End) :
    Accept env ignore_case (fuel + 1) that st =
      .ok { heap := st.heap
            os := st.os ++ nodeStatements env that n
            trace := st.trace ++ [that] } := by
  unfold Accept
  rw [hn]
  simp only [hk, VisitEnd_eq, St.write, nodeStatements, nodeDeclaration, onSuccessOf,
    List.append_assoc, List.append_nil]

theorem Visit_unvisited (env : Env) (ignore_case : Bool) (fuel node : Nat) (st : St)
    (n : RegExpNode) (hn : st.heap[node]? = some n) (hv : n.info.visited = false) :
    Visit env ignore_case fuel node st =
      Accept env ignore_case fuel node { st with heap := setVisited st.heap node } := by
  simp [Visit, VisitVia, hn, hv]


theorem noChoice_lookup {heap : List RegExpNode} (h : noChoice heap = true) {m : Nat}
    {n : RegExpNode} (hn : heap[m]? = some n) (hs : onSuccessOf n.kind = none) :
    n.kind = .End := by
  have h1 := (List.all_eq_true.mp h) n (List.getElem?_mem hn)
  cases hk : n.kind with
  | Choice a t1 t2 => rw [hk] at h1; simp at h1
  | End => rfl
  | Text e s => rw [hk] at hs; cases hs
  | BackReference a b s => rw [hk] at hs; cases hs
  | Assertion t s => rw [hk] at hs; cases hs
  | Action d s => rw [hk] at hs; cases hs

theorem successorsInRange_lookup {heap : List RegExpNode} (h : successorsInRange heap = true)
    {m s : Nat} {n : RegExpNode} (hn : heap[m]? = some n) (hs : onSuccessOf n.kind = some s) :
    s < heap.length := by
  have h1 := (List.all_eq_true.mp h) n (List.getElem?_mem hn)
  rw [hs] at h1
  simpa using h1

theorem nodeStatements_on_success (env : Env) (that : Nat) (n : RegExpNode) (s : Nat)
    (hs : onSuccessOf n.kind = some s) :
    nodeStatements env that n =
      nodeDeclaration env that n.kind ++ attributesRecord that n ++ attributesEdge that
        ++ edgeText that s ++ str ";\n" := by
  simp [nodeStatements, hs, List.append_assoc]

theorem isVisited_false_of_not {heap : List RegExpNode} {m : Nat}
    (h : ¬ isVisited heap m = true) : isVisited heap m = false := by
  cases hv : isVisited heap m with
  | false => rfl
  | true => exact absurd hv h

/-- The pass from a node of a graph without Choice nodes: with fuel for every
node still unvisited it returns, having rendered a chain of nodes that were
unvisited, each once, and having marked exactly those. -/
theorem choiceFree_visit (env : Env) (ignore_case : Bool) (heap0 : List RegExpNode)
    (h1 : noChoice heap0 = true) (h2 : successorsInRange heap0 = true) :
    ∀ (k : Nat) (st : St) (node : Nat) (S : Finset Nat),
      SameNodes heap0 st.heap → node < heap0.length →
      (∀ m, m < heap0.length → isVisited st.heap m = false → m ∈ S) → S.card ≤ k →
      ∃ st' path, Visit env ignore_case k node st = .ok st' ∧ SameNodes heap0 st'.heap ∧
        st'.trace = st.trace ++ path ∧
        st'.os = st.os ++ (path.map (statementsAt env heap0)).flatten ∧
        path.Nodup ∧
        (∀ m ∈ path, isVisited st.heap m = false ∧ Reachable heap0 node m) ∧
        (∀ m, isVisited st'.heap m = true ↔ (isVisited st.heap m = true ∨ m ∈ path)) ∧
        isVisited st'.heap node = true ∧
        (∀ m ∈ path, ∀ m', SuccessEdge heap0 m m' → isVisited st'.heap m' = true) := by
  have visited_case : ∀ (k : Nat) (st : St) (node : Nat), SameNodes heap0 st.heap →
      isVisited st.heap node = true →
      ∃ st' path, Visit env ignore_case k node st = .ok st' ∧ SameNodes heap0 st'.heap ∧
        st'.trace = st.trace ++ path ∧
        st'.os = st.os ++ (path.map (statementsAt env heap0)).flatten ∧
        path.Nodup ∧
        (∀ m ∈ path, isVisited st.heap m = false ∧ Reachable heap0 node m) ∧
        (∀ m, isVisited st'.heap m = true ↔ (isVisited st.heap m = true ∨ m ∈ path)) ∧
        isVisited st'.heap node = true ∧
        (∀ m ∈ path, ∀ m', SuccessEdge heap0 m m' → isVisited st'.heap m' = true) := by
    intro k st node hs hv
    refine ⟨st, [], VisitVia_visited hv, hs, by simp, by simp, List.nodup_nil, ?_, ?_, hv, ?_⟩
    · intro m hm; cases hm
    · intro m; simp
    · intro m hm; cases hm
  intro k
  induction k with
  | zero =>
    intro st node S hs hnode hS hk
    by_cases hv : isVisited st.heap node = true
    · exact visited_case 0 st node hs hv
    · have hmem := hS node hnode (isVisited_false_of_not hv)
      have hS0 : S = ∅ := Finset.card_eq_zero.mp (Nat.le_zero.mp hk)
      rw [hS0] at hmem
      exact absurd hmem (Finset.not_mem_empty _)
  | succ k ih =>
    intro st node S hs hnode hS hk
    by_cases hv : isVisited st.heap node = true
    · exact visited_case (k + 1) st node hs hv
    · have hvf := isVisited_false_of_not hv
      have hlt : node < st.heap.length := by rw [sameNodes_length hs]; exact hnode
      have hn : st.heap[node]? = some st.heap[node] := List.getElem?_eq_getElem hlt
      generalize st.heap[node] = n at hn
      have hnv : n.info.visited = false := by
        have := hvf
        simp only [isVisited, hn] at this
        exact this
      obtain ⟨n0, hn0, hu⟩ := sameNodes_lookup hs hn
      have hkind : n.kind = n0.kind := unvisit_kind hu
      have hstmt : statementsAt env heap0 node = nodeStatements env node n := by
        simp only [statementsAt, hn0]
        exact (unvisit_statements env node hu).symm
      obtain ⟨n1, hn1, hk1, hst1⟩ : ∃ n1, (setVisited st.heap node)[node]? = some n1 ∧
          n1.kind = n.kind ∧ nodeStatements env node n1 = nodeStatements env node n :=
        ⟨{ n with info := { n.info with visited := true } },
          by simp [setVisited, hn, List.getElem?_set_self hlt], rfl, rfl⟩
      have hs1 : SameNodes heap0 (setVisited st.heap node) := by
        unfold SameNodes
        rw [setVisited_sameNodes]
        exact hs
      have hmark : ∀ m, isVisited (setVisited st.heap node) m = true ↔
          isVisited st.heap m = true ∨ m = node := isVisited_setVisited_iff hn
      rw [Visit_unvisited env ignore_case (k + 1) node st n hn hnv]
      cases hsucc : onSuccessOf n.kind with
      | none =>
        have hend : n.kind = .End := by
          rw [hkind]
          exact noChoice_lookup h1 hn0 (by rw [← hkind]; exact hsucc)
        rw [Accept_end env ignore_case k node _ n1 hn1 (hk1.trans hend)]
        refine ⟨_, [node], rfl, hs1, rfl, ?_, List.nodup_singleton _, ?_, ?_, ?_, ?_⟩
        · simp only [List.map_cons, List.map_nil, List.flatten_cons, List.flatten_nil,
            List.append_nil, hstmt, hst1]
        · intro m hm
          rw [List.mem_singleton] at hm
          subst hm
          exact ⟨hvf, Relation.ReflTransGen.refl⟩
        · intro m
          rw [List.mem_singleton]
          exact hmark m
        · exact (hmark node).mpr (Or.inr rfl)
        · intro m hm m' hedge
          rw [List.mem_singleton] at hm
          subst hm
          obtain ⟨n0', hn0', hs0'⟩ := hedge
          rw [hn0] at hn0'
          cases hn0'
          rw [← hkind, hsucc] at hs0'
          cases hs0'
      | some s =>
        have hs0 : onSuccessOf n0.kind = some s := by rw [← hkind]; exact hsucc
        have hslt : s < heap0.length := successorsInRange_lookup h2 hn0 hs0
        have hedge : SuccessEdge heap0 node s := ⟨n0, hn0, hs0⟩
        rw [Accept_on_success env ignore_case k node _ n1 s hn1 (by rw [hk1]; exact hsucc)]
        have hmemS : node ∈ S := hS node hnode hvf
        have hcard : (S.erase node).card ≤ k := by
          rw [Finset.card_erase_of_mem hmemS]
          omega
        have hS2 : ∀ m, m < heap0.length → isVisited (setVisited st.heap node) m = false →
            m ∈ S.erase node := by
          intro m hm hmv
          rw [Finset.mem_erase]
          constructor
          · intro hmn
            subst hmn
            rw [(hmark m).mpr (Or.inr rfl)] at hmv
            cases hmv
          · apply hS m hm
            apply isVisited_false_of_not
            intro hvm
            rw [(hmark m).mpr (Or.inl hvm)] at hmv
            cases hmv
        obtain ⟨st', path', hrun, hs', htrace, hos, hnodup, hpath, hiff, _, hclosed⟩ :=
          ih { heap := setVisited st.heap node
               os := st.os ++ (nodeDeclaration env node n1.kind ++ attributesRecord node n1
                 ++ attributesEdge node ++ edgeText node s ++ str ";\n")
               trace := st.trace ++ [node] } s (S.erase node) hs1 hslt hS2 hcard
        have hnotin : node ∉ path' := by
          intro hmem
          have := (hpath node hmem).1
          rw [(hmark node).mpr (Or.inr rfl)] at this
          cases this
        refine ⟨st', node :: path', hrun, hs', ?_, ?_, List.nodup_cons.mpr ⟨hnotin, hnodup⟩,
          ?_, ?_, ?_, ?_⟩
        · rw [htrace]; simp
        · rw [hos]
          simp only [List.map_cons, List.flatten_cons, hstmt, ← hst1,
            nodeStatements_on_success env node n1 s (by rw [hk1]; exact hsucc),
            List.append_assoc]
        · intro m hm
          rcases List.mem_cons.mp hm with hm | hm
          · subst hm
            exact ⟨hvf, Relation.ReflTransGen.refl⟩
          · obtain ⟨hmv, hreach⟩ := hpath m hm
            refine ⟨?_, Relation.ReflTransGen.head hedge hreach⟩
            apply isVisited_false_of_not
            intro hvm
            rw [(hmark m).mpr (Or.inl hvm)] at hmv
            cases hmv
        · intro m
          rw [hiff m, hmark m, List.mem_cons]
          tauto
        · rw [hiff node]
          exact Or.inl ((hmark node).mpr (Or.inr rfl))
        · intro m hm m' hedge'
          rcases List.mem_cons.mp hm with hm | hm
          · subst hm
            obtain ⟨n0', hn0', hs0'⟩ := hedge'
            rw [hn0] at hn0'
            cases hn0'
            rw [hs0] at hs0'
            cases hs0'
            rename_i hstar
            exact hstar
          · exact hclosed m hm m' hedge'


theorem allUnvisited_isVisited {heap : List RegExpNode} (h : allUnvisited heap = true)
    (m : Nat) : isVisited heap m = false := by
  unfold isVisited
  cases hn : heap[m]? with
  | none => rfl
  | some n =>
    have h1 := (List.all_eq_true.mp h) n (List.getElem?_mem hn)
    simpa using h1

/-- C19: on a graph with no Choice node whose `on_success` indices point into
the arena and whose nodes all start unvisited, `PrintNode` from a root of the
arena returns (with fuel for every node), runs a renderer exactly once for each
node reachable from the root and for no other node, and writes between the
opening lines and the closing line exactly the statements of those nodes, one
declaration each, in the order of the runs; the nodes left visited are the
reachable ones. -/
theorem choice_free_pass (env : Env) (ignore_case : Bool) (label : List Char) (root : Nat)
    (heap : List RegExpNode) (fuel : Nat) (h1 : noChoice heap = true)
    (h2 : successorsInRange heap = true) (h3 : allUnvisited heap = true)
    (hroot : root < heap.length) (hfuel : heap.length ≤ fuel) :
    ∃ st, DotPrint env fuel label root ignore_case heap = .ok st ∧
      st.trace.Nodup ∧
      (∀ m, m ∈ st.trace ↔ Reachable heap root m) ∧
      st.os = graphHeader label ++ (st.trace.map (statementsAt env heap)).flatten
        ++ graphFooter ∧
      (∀ m, isVisited st.heap m = true ↔ Reachable heap root m) := by
  obtain ⟨st', path, hrun, _, htrace, hos, hnodup, hpath, hiff, hrootv, hclosed⟩ :=
    choiceFree_visit env ignore_case heap h1 h2 fuel
      { heap := heap, os := graphHeader label, trace := [] } root (Finset.range heap.length)
      rfl hroot (fun m hm _ => Finset.mem_range.mpr hm)
      (by rw [Finset.card_range]; exact hfuel)
  simp only [List.nil_append] at htrace
  have hmem : ∀ m, m ∈ path ↔ Reachable heap root m := by
    intro m
    constructor
    · intro hm
      exact (hpath m hm).2
    · intro hr
      have hin : ∀ x, isVisited st'.heap x = true → x ∈ path := by
        intro x hx
        rcases (hiff x).mp hx with hx0 | hx0
        · rw [allUnvisited_isVisited h3 x] at hx0; cases hx0
        · exact hx0
      induction hr with
      | refl => exact hin root hrootv
      | tail _ hedge ih => exact hin _ (hclosed _ ih _ hedge)
  refine ⟨st'.write graphFooter, ?_, ?_, ?_, ?_, ?_⟩
  · have hstart : (((St.init heap).write (str "digraph G \x7b\n  graph [label=\"")).write
        (escapeLabel label)).write (str "\"];\n")
        = { heap := heap, os := graphHeader label, trace := [] } := by
      simp [St.init, St.write, graphHeader, List.append_assoc]
    simp only [DotPrint, PrintNode, hstart, hrun, graphFooter]
  · simpa [St.write, htrace] using hnodup
  · intro m
    simpa [St.write, htrace] using hmem m
  · simp [St.write, htrace, hos, List.append_assoc]
  · intro m
    rw [← hmem m]
    simp only [St.write]
    rw [hiff m]
    constructor
    · rintro (h | h)
      · rw [allUnvisited_isVisited h3 m] at h; cases h
      · exact h
    · exact Or.inr

/-- C19 (witness): the loop of a Text node and an Action node, from the Text
node, with fuel 2. -/
theorem choice_free_pass_witness :
    noChoice loopGraph = true ∧ successorsInRange loopGraph = true ∧
    allUnvisited loopGraph = true ∧ 0 < loopGraph.length ∧ loopGraph.length ≤ 2 ∧
    ∃ st, DotPrint sampleEnv 2 [] 0 false loopGraph = .ok st ∧
      st.trace.Nodup ∧
      (∀ m, m ∈ st.trace ↔ Reachable loopGraph 0 m) ∧
      st.os = graphHeader [] ++ (st.trace.map (statementsAt sampleEnv loopGraph)).flatten
        ++ graphFooter ∧
      (∀ m, isVisited st.heap m = true ↔ Reachable loopGraph 0 m) :=
  ⟨by decide, by decide, by decide, by decide, by decide,
    choice_free_pass sampleEnv false [] 0 loopGraph 2 (by decide) (by decide) (by decide)
      (by decide) (by decide)⟩

end DotPrinter

namespace Reflect

/-- C20: each of the eight Reflect builtins, given a target that is not a
JSReceiver, throws the called-on-non-object `TypeError` naming the method and
returns with the world untouched: no `ToName` and no other object-model call is
made and the heap is as before.  Given a target that is a JSReceiver, none of
them returns that `TypeError`. -/
theorem reflect_target_checked_first {σ Obj Desc : Type} (iso : Isolate σ Obj Desc)
    (w : World σ) :
    ((∀ target key attributes : Obj, iso.IsJSReceiver target = false →
        ReflectDefineProperty iso target key attributes w =
          (.typeError .kCalledOnNonObject (.method "Reflect.defineProperty"), w)) ∧
      (∀ target key : Obj, iso.IsJSReceiver target = false →
        ReflectDeleteProperty iso target key w =
          (.typeError .kCalledOnNonObject (.method "Reflect.deleteProperty"), w)) ∧
      (∀ args : List Obj, iso.IsJSReceiver (atOrUndefined iso args 1) = false →
        ReflectGet iso args w =
          (.typeError .kCalledOnNonObject (.method "Reflect.get"), w)) ∧
      (∀ target key : Obj, iso.IsJSReceiver target = false →
        ReflectGetOwnPropertyDescriptor iso target key w =
          (.typeError .kCalledOnNonObject (.method "Reflect.getOwnPropertyDescriptor"), w)) ∧
      (∀ target : Obj, iso.IsJSReceiver target = false →
        ReflectGetPrototypeOf iso target w =
          (.typeError .kCalledOnNonObject (.method "Reflect.getPrototypeOf"), w)) ∧
      (∀ target : Obj, iso.IsJSReceiver target = false →
        ReflectOwnKeys iso target w =
          (.typeError .kCalledOnNonObject (.method "Reflect.ownKeys"), w)) ∧
      (∀ args : List Obj, iso.IsJSReceiver (atOrUndefined iso args 1) = false →
        ReflectSet iso args w =
          (.typeError .kCalledOnNonObject (.method "Reflect.set"), w)) ∧
      (∀ target proto : Obj, iso.IsJSReceiver target = false →
        ReflectSetPrototypeOf iso target proto w =
          (.typeError .kCalledOnNonObject (.method "Reflect.setPrototypeOf"), w))) ∧
    ((∀ (target key attributes : Obj) (arg : ErrorArg Obj), iso.IsJSReceiver target = true →
        (ReflectDefineProperty iso target key attributes w).1 ≠
          .typeError .kCalledOnNonObject arg) ∧
      (∀ (target key : Obj) (arg : ErrorArg Obj), iso.IsJSReceiver target = true →
        (ReflectDeleteProperty iso target key w).1 ≠ .typeError .kCalledOnNonObject arg) ∧
      (∀ (args : List Obj) (arg : ErrorArg Obj),
        iso.IsJSReceiver (atOrUndefined iso args 1) = true →
        (ReflectGet iso args w).1 ≠ .typeError .kCalledOnNonObject arg) ∧
      (∀ (target key : Obj) (arg : ErrorArg Obj), iso.IsJSReceiver target = true →
        (ReflectGetOwnPropertyDescriptor iso target key w).1 ≠
          .typeError .kCalledOnNonObject arg) ∧
      (∀ (target : Obj) (arg : ErrorArg Obj), iso.IsJSReceiver target = true →
        (ReflectGetPrototypeOf iso target w).1 ≠ .typeError .kCalledOnNonObject arg) ∧
      (∀ (target : Obj) (arg : ErrorArg Obj), iso.IsJSReceiver target = true →
        (ReflectOwnKeys iso target w).1 ≠ .typeError .kCalledOnNonObject arg) ∧
      (∀ (args : List Obj) (arg : ErrorArg Obj),
        iso.IsJSReceiver (atOrUndefined iso args 1) = true →
        (ReflectSet iso args w).1 ≠ .typeError .kCalledOnNonObject arg) ∧
      (∀ (target proto : Obj) (arg : ErrorArg Obj), iso.IsJSReceiver target = true →
        (ReflectSetPrototypeOf iso target proto w).1 ≠
          .typeError .kCalledOnNonObject arg)) := by
  refine ⟨⟨?_, ?_, ?_, ?_, ?_, ?_, ?_, ?_⟩, ⟨?_, ?_, ?_, ?_, ?_, ?_, ?_, ?_⟩⟩
  · intro target key attributes h
    simp [ReflectDefineProperty, h]
  · intro target key h
    simp [ReflectDeleteProperty, h]
  · intro args h
    simp [ReflectGet, h]
  · intro target key h
    simp [ReflectGetOwnPropertyDescriptor, h]
  · intro target h
    simp [ReflectGetPrototypeOf, h]
  · intro target h
    simp [ReflectOwnKeys, h]
  · intro args h
    simp [ReflectSet, h]
  · intro target proto h
    simp [ReflectSetPrototypeOf, h]
  · intro target key attributes arg h
    simp only [ReflectDefineProperty, h, Bool.not_true, Bool.false_eq_true, if_false]
    repeat' split
    all_goals simp
  · intro target key arg h
    simp only [ReflectDeleteProperty, h, Bool.not_true, Bool.false_eq_true, if_false]
    repeat' split
    all_goals simp
  · intro args arg h
    simp only [ReflectGet, h, Bool.not_true, Bool.false_eq_true, if_false]
    repeat' split
    all_goals simp
  · intro target key arg h
    simp only [ReflectGetOwnPropertyDescriptor, h, Bool.not_true, Bool.false_eq_true, if_false]
    repeat' split
    all_goals simp
  · intro target arg h
    simp only [ReflectGetPrototypeOf, h, Bool.not_true, Bool.false_eq_true, if_false]
    repeat' split
    all_goals simp
  · intro target arg h
    simp only [ReflectOwnKeys, h, Bool.not_true, Bool.false_eq_true, if_false]
    repeat' split
    all_goals simp
  · intro args arg h
    simp only [ReflectSet, h, Bool.not_true, Bool.false_eq_true, if_false]
    repeat' split
    all_goals simp
  · intro target proto arg h
    simp only [ReflectSetPrototypeOf, h, Bool.not_true, Bool.false_eq_true, if_false]
    repeat' split
    all_goals simp

/-- C20 (witness): in the sample object model, `Reflect.get` on the
non-receiver 5 throws with no call logged, and `Reflect.set` on the receiver 100
does not throw that error. -/
theorem reflect_target_checked_first_witness :
    sampleIsolate.IsJSReceiver (atOrUndefined sampleIsolate [7, 5, 9] 1) = false ∧
    ReflectGet sampleIsolate [7, 5, 9] sampleWorld =
      (.typeError .kCalledOnNonObject (.method "Reflect.get"), sampleWorld) ∧
    sampleIsolate.IsJSReceiver (atOrUndefined sampleIsolate [7, 100, 9, 4] 1) = true ∧
    (ReflectSet sampleIsolate [7, 100, 9, 4] sampleWorld).1 ≠
      .typeError .kCalledOnNonObject (.method "Reflect.set") :=
  ⟨rfl, (reflect_target_checked_first sampleIsolate sampleWorld).1.2.2.1 [7, 5, 9] rfl, rfl,
    (reflect_target_checked_first sampleIsolate sampleWorld).2.2.2.2.2.2.2.1 [7, 100, 9, 4]
      (.method "Reflect.set") rfl⟩

end Reflect
